import Mathlib

/-!
kdc2bmp: Kodak DC120 raw sensor capture to bitmap.

A shallow embedding of `kdc2bmp.c`: the row offset table and the gamma table,
the loop that reads and unrotates the sensor rows, the replication and
interpolation passes that build the three colour planes, the loop that writes
the gamma corrected, stretched pixel data, and `main` with its header tests.
The pass-through converter `kdc2jpg.c` follows in the namespace `Kdc2jpg`.

Conventions.  An `unsigned char` is a `Nat` below 256; every store into an
`unsigned char` object reduces modulo 256.  C `int` arithmetic is exact here
(no expression of the program leaves the `int` range).  A two-dimensional
array is a function of the row and the column index.  An input `FILE` is the
list of the bytes not read yet, an output `FILE` the list of the bytes written
so far.
-/

namespace Kdc2bmp

/-! ## Constants and tables -/

def CCDWID : Nat := 848
def CCDHEI : Nat := 976
def CCDOFF : Nat := 15680

/-- Data for the bmp header (24 bits per pixel, 1272x976). -/
def bmphead : List Nat := [
  0x42, 0x4D, 0x36, 0x24, 0x00, 0x00, 0x00, 0x00,
  0x00, 0x00, 0x36, 0x00, 0x00, 0x00, 0x28, 0x00,
  0x00, 0x00, 0xF8, 0x04, 0x00, 0x00, 0xD0, 0x03,
  0x00, 0x00, 0x01, 0x00, 0x18, 0x00, 0x00, 0x00,
  0x00, 0x00, 0x00, 0x24, 0x00, 0x00, 0x00, 0x00,
  0x00, 0x00, 0x00, 0x00, 0x00, 0x00, 0x00, 0x00,
  0x00, 0x00, 0x00, 0x00, 0x00, 0x00
]

/-- Gamma correction table for gamma = 1.7. -/
def gamma : List Nat := [
  0, 10, 15, 19, 22, 25, 28, 31, 33, 36, 38, 40, 42, 44, 46, 48,
  50, 52, 54, 55, 57, 59, 60, 62, 64, 65, 67, 68, 70, 71, 72, 74,
  75, 77, 78, 79, 81, 82, 83, 84, 86, 87, 88, 89, 91, 92, 93, 94,
  95, 97, 98, 99, 100, 101, 102, 103, 105, 106, 107, 108, 109, 110, 111, 112,
  113, 114, 115, 116, 117, 118, 119, 120, 121, 122, 123, 124, 125, 126, 127, 128,
  129, 130, 131, 132, 133, 134, 135, 135, 136, 137, 138, 139, 140, 141, 142, 143,
  144, 144, 145, 146, 147, 148, 149, 150, 150, 151, 152, 153, 154, 155, 156, 156,
  157, 158, 159, 160, 160, 161, 162, 163, 164, 164, 165, 166, 167, 168, 168, 169,
  170, 171, 172, 172, 173, 174, 175, 175, 176, 177, 178, 178, 179, 180, 181, 181,
  182, 183, 184, 184, 185, 186, 187, 187, 188, 189, 190, 190, 191, 192, 192, 193,
  194, 195, 195, 196, 197, 197, 198, 199, 199, 200, 201, 202, 202, 203, 204, 204,
  205, 206, 206, 207, 208, 208, 209, 210, 210, 211, 212, 212, 213, 214, 214, 215,
  216, 216, 217, 218, 218, 219, 220, 220, 221, 222, 222, 223, 224, 224, 225, 226,
  226, 227, 227, 228, 229, 229, 230, 231, 231, 232, 233, 233, 234, 234, 235, 236,
  236, 237, 238, 238, 239, 239, 240, 241, 241, 242, 242, 243, 244, 244, 245, 245,
  246, 247, 247, 248, 248, 249, 250, 250, 251, 251, 252, 253, 253, 254, 254, 255
]

/-- Row rotation table for decoding uncompressed .kdc files (`short int`). -/
def kdcoff : List Int := [
  0, 828, 798, 488, 648, 748, 698, 8, 448, 668, 598, 376, 248, 588, 498, 744,
  48, 508, 398, 264, 696, 428, 298, 632, 496, 348, 198, 152, 296, 268, 98, 520,
  96, 188, 846, 40, 744, 108, 746, 408, 544, 28, 646, 776, 344, 796, 546, 296,
  144, 716, 446, 664, 792, 636, 346, 184, 592, 556, 246, 552, 392, 476, 146, 72,
  192, 396, 46, 440, 840, 316, 794, 808, 640, 236, 694, 328, 440, 156, 594, 696,
  240, 76, 494, 216, 40, 844, 394, 584, 688, 764, 294, 104, 488, 684, 194, 472,
  288, 604, 94, 840, 88, 524, 842, 360, 736, 444, 742, 728, 536, 364, 642, 248,
  336, 284, 542, 616, 136, 204, 442, 136, 784, 124, 342, 504, 584, 44, 242, 24,
  384, 812, 142, 392, 184, 732, 42, 760, 832, 652, 790, 280, 632, 572, 690, 648,
  432, 492, 590, 168, 232, 412, 490, 536, 32, 332, 390, 56, 680, 252, 290, 424,
  480, 172, 190, 792, 280, 92, 90, 312, 80, 12, 838, 680, 728, 780, 738, 200,
  528, 700, 638, 568, 328, 620, 538, 88, 128, 540, 438, 456, 776, 460, 338, 824,
  576, 380, 238, 344, 376, 300, 138, 712, 176, 220, 38, 232, 824, 140, 786, 600,
  624, 60, 686, 120, 424, 828, 586, 488, 224, 748, 486, 8, 24, 668, 386, 376,
  672, 588, 286, 744, 472, 508, 186, 264, 272, 428, 86, 632, 72, 348, 834, 152,
  720, 268, 734, 520, 520, 188, 634, 40, 320, 108, 534, 408, 120, 28, 434, 776,
  768, 796, 334, 296, 568, 716, 234, 664, 368, 636, 134, 184, 168, 556, 34, 552,
  816, 476, 782, 72, 616, 396, 682, 440, 416, 316, 582, 808, 216, 236, 482, 328,
  16, 156, 382, 696, 664, 76, 282, 216, 464, 844, 182, 584, 264, 764, 82, 104,
  64, 684, 830, 472, 712, 604, 730, 840, 512, 524, 630, 360, 312, 444, 530, 728,
  112, 364, 430, 248, 760, 284, 330, 616, 560, 204, 230, 136, 360, 124, 130, 504,
  160, 44, 30, 24, 808, 812, 778, 392, 608, 732, 678, 760, 408, 652, 578, 280,
  208, 572, 478, 648, 8, 492, 378, 168, 656, 412, 278, 536, 456, 332, 178, 56,
  256, 252, 78, 424, 56, 172, 826, 792, 704, 92, 726, 312, 504, 12, 626, 680,
  304, 780, 526, 200, 104, 700, 426, 568, 752, 620, 326, 88, 552, 540, 226, 456,
  352, 460, 126, 824, 152, 380, 26, 344, 800, 300, 774, 712, 600, 220, 674, 232,
  400, 140, 574, 600, 200, 60, 474, 120, 0, 828, 374, 488, 648, 748, 274, 8,
  448, 668, 174, 376, 248, 588, 74, 744, 48, 508, 822, 264, 696, 428, 722, 632,
  496, 348, 622, 152, 296, 268, 522, 520, 96, 188, 422, 40, 744, 108, 322, 408,
  544, 28, 222, 776, 344, 796, 122, 296, 144, 716, 22, 664, 792, 636, 770, 184,
  592, 556, 670, 552, 392, 476, 570, 72, 192, 396, 470, 440, 840, 316, 370, 808,
  640, 236, 270, 328, 440, 156, 170, 696, 240, 76, 70, 216, 40, 844, 818, 584,
  688, 764, 718, 104, 488, 684, 618, 472, 288, 604, 518, 840, 88, 524, 418, 360,
  736, 444, 318, 728, 536, 364, 218, 248, 336, 284, 118, 616, 136, 204, 18, 136,
  784, 124, 766, 504, 584, 44, 666, 24, 384, 812, 566, 392, 184, 732, 466, 760,
  832, 652, 366, 280, 632, 572, 266, 648, 432, 492, 166, 168, 232, 412, 66, 536,
  32, 332, 814, 56, 680, 252, 714, 424, 480, 172, 614, 792, 280, 92, 514, 312,
  80, 12, 414, 680, 728, 780, 314, 200, 528, 700, 214, 568, 328, 620, 114, 88,
  128, 540, 14, 456, 776, 460, 762, 824, 576, 380, 662, 344, 376, 300, 562, 712,
  176, 220, 462, 232, 824, 140, 362, 600, 624, 60, 262, 120, 424, 828, 162, 488,
  224, 748, 62, 8, 24, 668, 810, 376, 672, 588, 710, 744, 472, 508, 610, 264,
  272, 428, 510, 632, 72, 348, 410, 152, 720, 268, 310, 520, 520, 188, 210, 40,
  320, 108, 110, 408, 120, 28, 10, 776, 768, 796, 758, 296, 568, 716, 658, 664,
  368, 636, 558, 184, 168, 556, 458, 552, 816, 476, 358, 72, 616, 396, 258, 440,
  416, 316, 158, 808, 216, 236, 58, 328, 16, 156, 806, 696, 664, 76, 706, 216,
  464, 844, 606, 584, 264, 764, 506, 104, 64, 684, 406, 472, 712, 604, 306, 840,
  512, 524, 206, 360, 312, 444, 106, 728, 112, 364, 6, 248, 760, 284, 754, 616,
  560, 204, 654, 136, 360, 124, 554, 504, 160, 44, 454, 24, 808, 812, 354, 392,
  608, 732, 254, 760, 408, 652, 154, 280, 208, 572, 54, 648, 8, 492, 802, 168,
  656, 412, 702, 536, 456, 332, 602, 56, 256, 252, 502, 424, 56, 172, 402, 792,
  704, 92, 302, 312, 504, 12, 202, 680, 304, 780, 102, 200, 104, 700, 2, 568,
  752, 620, 750, 88, 552, 540, 650, 456, 352, 460, 550, 824, 152, 380, 450, 344,
  800, 300, 350, 712, 600, 220, 250, 232, 400, 140, 150, 600, 200, 60, 50, 120,
  0, 828, 798, 488, 648, 748, 698, 8, 448, 668, 598, 376, 248, 588, 498, 744,
  48, 508, 398, 264, 696, 428, 298, 632, 496, 348, 198, 152, 296, 268, 98, 520,
  96, 188, 846, 40, 744, 108, 746, 408, 544, 28, 646, 776, 344, 796, 546, 296,
  144, 716, 446, 664, 792, 636, 346, 184, 592, 556, 246, 552, 392, 476, 146, 72,
  192, 396, 46, 440, 840, 316, 794, 808, 640, 236, 694, 328, 440, 156, 594, 696,
  240, 76, 494, 216, 40, 844, 394, 584, 688, 764, 294, 104, 488, 684, 194, 472,
  288, 604, 94, 840, 88, 524, 842, 360, 736, 444, 742, 728, 536, 364, 642, 248,
  336, 284, 542, 616, 136, 204, 442, 136, 784, 124, 342, 504, 584, 44, 242, 24
]

/-! ## Machine level primitives -/

/-- Conversion of an `int` to `unsigned char`: reduction modulo 256. -/
def ucharOfInt (v : Int) : Nat := (v % 256).toNat

/-- Conversion of a non-negative `int` to `unsigned char`. -/
def uchar (n : Nat) : Nat := n % 256

/-- `fgetc`: the next byte of the stream as an `int` and the rest of the
stream, or `EOF` (-1) when nothing is left. -/
def fgetc : List Nat → Int × List Nat
  | [] => (-1, [])
  | b :: rest => ((b : Int), rest)

/-- `fputc`: appends the character, converted to `unsigned char`. -/
def fputc (c : Nat) (out : List Nat) : List Nat := out ++ [uchar c]

/-- Table lookup `gamma[i]`. -/
def gammaAt (i : Nat) : Nat := gamma.getD i 0

/-- Table lookup `kdcoff[k]`. -/
def kdcoffAt (k : Nat) : Int := kdcoff.getD k 0

/-- A two-dimensional `unsigned char` array, row index first. -/
abbrev Grid := Nat → Nat → Nat

/-- The assignment `g[k][j] = v`. -/
def setCell (g : Grid) (k j v : Nat) : Grid :=
  fun k1 j1 => if k1 = k ∧ j1 = j then v else g k1 j1

/-- The loop `for (i = start; i < bound; i += step) body`, started at `i`;
`fuel` bounds the number of iterations. -/
def forUp {σ : Type} (body : Nat → σ → σ) (bound step : Nat) : Nat → Nat → σ → σ
  | 0, _, s => s
  | fuel + 1, i, s =>
    if i < bound then forUp body bound step fuel (i + step) (body i s) else s

/-- The loop `for (k = n - 1; k >= 0; k--) body`. -/
def forDown {σ : Type} (body : Nat → σ → σ) : Nat → σ → σ
  | 0, s => s
  | n + 1, s => forDown body n (body n s)

/-! ## Reading and unrotating the sensor data -/

/-- The column index `(j - kdcoff[k] + CCDWID) % CCDWID`, in `int` arithmetic
(`%` truncates towards zero). -/
def destCol (j : Nat) (off : Int) : Int :=
  (((j : Int) - off + (CCDWID : Int))).tmod (CCDWID : Int)

/-- State of the reading loop: the sensor array and the input stream. -/
structure ReadState where
  ccd : Grid
  kdc : List Nat

/-- The statement `ccd[k][(j-kdcoff[k]+CCDWID) % CCDWID] = fgetc(kdc);`. -/
def readCell (k j : Nat) (s : ReadState) : ReadState :=
  let r := fgetc s.kdc
  { ccd := setCell s.ccd k (destCol j (kdcoffAt k)).toNat (ucharOfInt r.1),
    kdc := r.2 }

/-- Read in and rotate the uncompressed data. -/
def readCcd (s : ReadState) : ReadState :=
  forUp (fun k s => forUp (fun j s => readCell k j s) CCDWID 1 CCDWID 0 s)
    CCDHEI 1 CCDHEI 0 s

/-- Re-scrambling of one unrotated row, as the round-trip law words it: the
value at column `d` moves back to column `(d + off) mod 848`.  This is not code
of the program; it is the inverse the law compares the reading loop with. -/
def rescrambleRow (off : Int) (row : Nat → Nat) : Nat → Nat :=
  (forUp (fun d (out : Nat → Nat) =>
      fun c => if c = (((d : Int) + off) % (CCDWID : Int)).toNat then row d else out c)
    CCDWID 1 CCDWID 0 (fun _ => 0))

/-- One raw row through the reading loop body: row `k` of the sensor array
after the inner loop has consumed the 848 bytes `raw 0 .. raw 847`. -/
def descrambleRow (k : Nat) (raw : Nat → Nat) : Nat → Nat :=
  (forUp (fun j s => readCell k j s) CCDWID 1 CCDWID 0
    { ccd := fun _ _ => 0, kdc := (List.range CCDWID).map raw }).ccd k

/-! ## Colour planes -/

/-- Storage for red, green, blue data, before expanding 1.5x. -/
structure Planes where
  red : Grid
  gre : Grid
  blu : Grid

/-- The planes as the program starts: objects of static storage are zero. -/
def zeroPlanes : Planes :=
  { red := fun _ _ => 0, gre := fun _ _ => 0, blu := fun _ _ => 0 }

def setRed (p : Planes) (k j v : Nat) : Planes := { p with red := setCell p.red k j (uchar v) }
def setGre (p : Planes) (k j v : Nat) : Planes := { p with gre := setCell p.gre k j (uchar v) }
def setBlu (p : Planes) (k j v : Nat) : Planes := { p with blu := setCell p.blu k j (uchar v) }

/-- Body of the pixel replication loop. -/
def replicateBody (ccd : Grid) (k j : Nat) (p : Planes) : Planes :=
  let p := setRed p k j (ccd k (j+1))
  let p := setRed p k (j+1) (ccd k (j+1))
  let p := setRed p (k+1) j (ccd k (j+1))
  let p := setRed p (k+1) (j+1) (ccd k (j+1))
  let p := setGre p k j (ccd k j)
  let p := setGre p k (j+1) (ccd k j)
  let p := setGre p (k+1) j (ccd (k+1) (j+1))
  let p := setGre p (k+1) (j+1) (ccd (k+1) (j+1))
  let p := setBlu p k j (ccd (k+1) j)
  let p := setBlu p k (j+1) (ccd (k+1) j)
  let p := setBlu p (k+1) j (ccd (k+1) j)
  setBlu p (k+1) (j+1) (ccd (k+1) j)

/-- Use pixel replication to start. -/
def replicate (ccd : Grid) (p : Planes) : Planes :=
  forUp (fun k p => forUp (fun j p => replicateBody ccd k j p) CCDWID 2 CCDWID 0 p)
    CCDHEI 2 CCDHEI 0 p

/-- Body of the red interpolation loop. -/
def redBody (ccd : Grid) (k j : Nat) (p : Planes) : Planes :=
  let r := uchar (ccd k j)
  let rl := uchar (ccd k (j-2))
  let rb := uchar (ccd (k+2) j)
  let rc := uchar (ccd (k+2) (j-2))
  let p := setRed p k (j-1) ((r + rl) / 2)
  let p := setRed p (k+1) j ((r + rb) / 2)
  setRed p (k+1) (j-1) ((r + rl + rb + rc) / 4)

/-- Compute the interpolated red data. -/
def redPass (ccd : Grid) (p : Planes) : Planes :=
  forUp (fun k p => forUp (fun j p => redBody ccd k j p) (CCDWID-2) 2 CCDWID 3 p)
    (CCDHEI-2) 2 CCDHEI 2 p

/-- Body of both green interpolation loops. -/
def greBody (ccd : Grid) (k j : Nat) (p : Planes) : Planes :=
  let gl := uchar (ccd k (j-1))
  let gr := uchar (ccd k (j+1))
  let gt := uchar (ccd (k-1) j)
  let gb := uchar (ccd (k+1) j)
  setGre p k j ((gl + gr + gt + gb) / 4)

/-- Compute the interpolated green data, rows `k = 2, 4, ..`. -/
def grePassEven (ccd : Grid) (p : Planes) : Planes :=
  forUp (fun k p => forUp (fun j p => greBody ccd k j p) (CCDWID-2) 2 CCDWID 3 p)
    (CCDHEI-2) 2 CCDHEI 2 p

/-- Compute the interpolated green data, rows `k = 3, 5, ..`. -/
def grePassOdd (ccd : Grid) (p : Planes) : Planes :=
  forUp (fun k p => forUp (fun j p => greBody ccd k j p) (CCDWID-2) 2 CCDWID 2 p)
    (CCDHEI-2) 2 CCDHEI 3 p

/-- Body of the blue interpolation loop. -/
def bluBody (ccd : Grid) (k j : Nat) (p : Planes) : Planes :=
  let b := uchar (ccd k j)
  let br := uchar (ccd k (j+2))
  let bt := uchar (ccd (k-2) j)
  let bc := uchar (ccd (k-2) (j+2))
  let p := setBlu p k (j+1) ((b + br) / 2)
  let p := setBlu p (k-1) j ((b + bt) / 2)
  setBlu p (k-1) (j+1) ((b + br + bt + bc) / 4)

/-- Compute the interpolated blue data. -/
def bluPass (ccd : Grid) (p : Planes) : Planes :=
  forUp (fun k p => forUp (fun j p => bluBody ccd k j p) (CCDWID-2) 2 CCDWID 2 p)
    (CCDHEI-2) 2 CCDHEI 3 p

/-- The interpolation passes in program order. -/
def interpolate (ccd : Grid) (p : Planes) : Planes :=
  bluPass ccd (grePassOdd ccd (grePassEven ccd (redPass ccd p)))

/-- Replication followed by interpolation, from the planes at program start. -/
def demosaic (ccd : Grid) : Planes :=
  interpolate ccd (replicate ccd zeroPlanes)

/-! ## Gamma corrected, stretched pixel data -/

/-- The nine gamma table indices of one loop body, in the order of the nine
`fputc` calls. -/
def pairIdx (p : Planes) (k j : Nat) : List Nat :=
  [ p.blu k j, p.gre k j, p.red k j,
    (p.blu k j + p.blu k (j+1)) / 2,
    (p.gre k j + p.gre k (j+1)) / 2,
    (p.red k j + p.red k (j+1)) / 2,
    p.blu k (j+1), p.gre k (j+1), p.red k (j+1) ]

/-- Body of the output loop: nine `fputc(gamma[..], bmp)` calls. -/
def emitPair (p : Planes) (k j : Nat) (bmp : List Nat) : List Nat :=
  let bmp := fputc (gammaAt (p.blu k j)) bmp
  let bmp := fputc (gammaAt (p.gre k j)) bmp
  let bmp := fputc (gammaAt (p.red k j)) bmp
  let bmp := fputc (gammaAt ((p.blu k j + p.blu k (j+1)) / 2)) bmp
  let bmp := fputc (gammaAt ((p.gre k j + p.gre k (j+1)) / 2)) bmp
  let bmp := fputc (gammaAt ((p.red k j + p.red k (j+1)) / 2)) bmp
  let bmp := fputc (gammaAt (p.blu k (j+1))) bmp
  let bmp := fputc (gammaAt (p.gre k (j+1))) bmp
  fputc (gammaAt (p.red k (j+1))) bmp

/-- The inner output loop: one plane row. -/
def emitRow (p : Planes) (k : Nat) (bmp : List Nat) : List Nat :=
  forUp (fun j bmp => emitPair p k j bmp) CCDWID 2 CCDWID 0 bmp

/-- Write out the gamma corrected, stretched pixel data. -/
def writePixels (p : Planes) (bmp : List Nat) : List Nat :=
  forDown (fun k bmp => emitRow p k bmp) CCDHEI bmp

/-- The pixel stream: what the output loop writes, on its own. -/
def pixelStream (p : Planes) : List Nat := writePixels p []

/-- The gamma table indices in the order the output loop uses them. -/
def indexStream (p : Planes) : List Nat :=
  forDown (fun k acc => forUp (fun j acc => acc ++ pairIdx p k j) CCDWID 2 CCDWID 0 acc)
    CCDHEI []

/-! ## Notions used in the statements -/

/-- The values of the loop variable in `for (i = start; i < bound; i += step)`. -/
def Visits (start bound step i : Nat) : Prop :=
  start ≤ i ∧ i < bound ∧ (i - start) % step = 0

instance (start bound step i : Nat) : Decidable (Visits start bound step i) := by
  unfold Visits
  infer_instance

/-- The value the reading loop stores for the `i`-th `fgetc` call on `kdc`. -/
def byteRead (kdc : List Nat) (i : Nat) : Nat := ucharOfInt (fgetc (kdc.drop i)).1

/-- The concatenation `f 0 ++ f 1 ++ .. ++ f (n - 1)`. -/
def blocks {α : Type} (n : Nat) (f : Nat → List α) : List α :=
  ((List.range n).map f).flatten

/-- The bytes the inner output loop writes for plane row `k`. -/
def rowBytes (p : Planes) (k : Nat) : List Nat :=
  blocks 424 (fun m => (pairIdx p k (2 * m)).map gammaAt)

/-- Planes with 0 in every even column and 255 in every odd column. -/
def stripes : Planes :=
  { red := fun _ j => if j % 2 = 0 then 0 else 255,
    gre := fun _ j => if j % 2 = 0 then 0 else 255,
    blu := fun _ j => if j % 2 = 0 then 0 else 255 }

/-- The plane value behind destination pixel `x` of a row: pixel `3 m` is the
sample of column `2 m`, pixel `3 m + 1` the truncated mean of columns `2 m` and
`2 m + 1`, pixel `3 m + 2` the sample of column `2 m + 1`. -/
def pixelSource (x : Nat) (row : Nat → Nat) : Nat :=
  if x % 3 = 0 then row (2 * (x / 3))
  else if x % 3 = 1 then (row (2 * (x / 3)) + row (2 * (x / 3) + 1)) / 2
  else row (2 * (x / 3) + 1)

/-- Every cell of the 976 x 848 area of every plane equals `V`. -/
def ConstPlanes (V : Nat) (p : Planes) : Prop :=
  ∀ k j, k < 976 → j < 848 → p.red k j = V ∧ p.gre k j = V ∧ p.blu k j = V

/-! ## The program `kdc2bmp` -/

/-- The 16 bit little-endian field of a byte table at offset `i`. -/
def le16 (l : List Nat) (i : Nat) : Nat := l.getD i 0 + 256 * l.getD (i + 1) 0

/-- The 32 bit little-endian field of a byte table at offset `i`. -/
def le32 (l : List Nat) (i : Nat) : Nat :=
  l.getD i 0 + 256 * l.getD (i + 1) 0 + 65536 * l.getD (i + 2) 0
    + 16777216 * l.getD (i + 3) 0

/-- The characters of the string literal `"Kodak DC120 ZOOM Digital Camera"`,
without its terminating NUL. -/
def ident : List Nat := "Kodak DC120 ZOOM Digital Camera".toList.map Char.toNat

/-- `strcmp` on two byte sequences read as NUL-terminated strings; the end of a
list counts as the terminator.  The result is zero exactly for equal strings. -/
def strcmp : List Nat → List Nat → Int
  | a :: as, b :: bs =>
    if a ≠ b then (a : Int) - (b : Int) else if a = 0 then 0 else strcmp as bs
  | a :: _, [] => (a : Int)
  | [], b :: _ => -(b : Int)
  | [], [] => 0

/-- `fread(buf, 1, n, f)` into a zeroed buffer of `n` bytes: the buffer and the
rest of the stream.  Bytes the stream cannot deliver stay zero. -/
def fread (n : Nat) (f : List Nat) : List Nat × List Nat :=
  (f.take n ++ List.replicate (n - f.length) 0, f.drop n)

/-- `fwrite(buf, 1, sizeof(buf), f)` for a table of `unsigned char`. -/
def fwrite (buf : List Nat) (out : List Nat) : List Nat := out ++ buf

/-- The diagnostics of the two programs, one per `fprintf` before a `return`. -/
inductive Diag where
  | usage
  | cantOpen
  | notDC120
  | notUncompressed
  | notCompressed
  | cantCreate
  deriving DecidableEq

/-- What a run of `kdc2bmp` leaves behind: the diagnostics printed and the
content of the .bmp file, `none` when the file was never opened.  The progress
messages on `stdout` are left out. -/
structure World where
  diag : List Diag
  bmp : Option (List Nat)

/-- The sensor array after the reading loop, started on the zeroed array `ccd`
with the stream positioned behind the header. -/
def sensorGrid (payload : List Nat) : Grid :=
  (readCcd { ccd := fun _ _ => 0, kdc := payload }).ccd

/-- The function `main` of `kdc2bmp.c`.  `kdc` is what `fopen(name, "rb")` gives:
the content of the .kdc file, or `none`; `canCreate` tells whether
`fopen(name, "wb")` succeeds. -/
def main (argc : Nat) (kdc : Option (List Nat)) (canCreate : Bool) : World :=
  if argc ≠ 2 then { diag := [Diag.usage], bmp := none }
  else
    match kdc with
    | none => { diag := [Diag.cantOpen], bmp := none }
    | some file =>
      let r := fread CCDOFF file
      if strcmp (r.1.drop 470) ident ≠ 0 then { diag := [Diag.notDC120], bmp := none }
      else if r.1.getD 707 0 ≠ 1 then { diag := [Diag.notUncompressed], bmp := none }
      else
        let ccd := sensorGrid r.2
        let p := demosaic ccd
        if canCreate = false then { diag := [Diag.cantCreate], bmp := none }
        else { diag := [], bmp := some (writePixels p (fwrite bmphead [])) }

/-- The NUL-terminated string that starts at offset `off` of a buffer. -/
def cString (buf : List Nat) (off : Nat) : List Nat :=
  (buf.drop off).takeWhile (fun c => decide (c ≠ 0))

/-- A header buffer with the identifier string at offset 470 and the
compression mode `mode` at offset 707. -/
def ValidHeader (hdr : List Nat) (mode : Nat) : Prop :=
  cString hdr 470 = ident ∧ hdr.getD 707 0 = mode

/-- A header buffer that passes both tests of `kdc2bmp`: the identifier at
offset 470, a NUL behind it, 1 at offset 707, zero elsewhere. -/
def goodHeader : List Nat :=
  List.replicate 470 0 ++ (ident ++ (List.replicate 206 0 ++ (1 :: List.replicate 14972 0)))

/-! ## Array indices and stored values of the loop bodies -/

/-- The index pairs `[row][column]` in the body of the replication loop: the
four cells of `ccd` read and the four cells of each plane written. -/
def replicateIdx (k j : Int) : List (Int × Int) :=
  [(k, j + 1), (k, j), (k + 1, j + 1), (k + 1, j),
   (k, j), (k, j + 1), (k + 1, j), (k + 1, j + 1)]

/-- The index pairs in the body of the red loop: four reads of `ccd`, three
writes of `red`. -/
def redIdx (k j : Int) : List (Int × Int) :=
  [(k, j), (k, j - 2), (k + 2, j), (k + 2, j - 2),
   (k, j - 1), (k + 1, j), (k + 1, j - 1)]

/-- The index pairs in the body of a green loop: four reads of `ccd`, one write
of `gre`. -/
def greIdx (k j : Int) : List (Int × Int) :=
  [(k, j - 1), (k, j + 1), (k - 1, j), (k + 1, j), (k, j)]

/-- The index pairs in the body of the blue loop: four reads of `ccd`, three
writes of `blu`. -/
def bluIdx (k j : Int) : List (Int × Int) :=
  [(k, j), (k, j + 2), (k - 2, j), (k - 2, j + 2),
   (k, j + 1), (k - 1, j), (k - 1, j + 1)]

/-- The index pairs in the body of the output loop: each plane is read at
`[k][j]` and `[k][j+1]`. -/
def emitIdx (k j : Int) : List (Int × Int) := [(k, j), (k, j + 1)]

/-- An index pair inside a 976 x 848 array. -/
def InGrid (x : Int × Int) : Prop := 0 ≤ x.1 ∧ x.1 < 976 ∧ 0 ≤ x.2 ∧ x.2 < 848

/-- The values the replication loop body assigns to plane cells. -/
def replicateStores (ccd : Grid) (k j : Nat) : List Nat :=
  [ccd k (j + 1), ccd k j, ccd (k + 1) (j + 1), ccd (k + 1) j]

/-- The `int` values the red loop body assigns to plane cells. -/
def redStores (ccd : Grid) (k j : Nat) : List Nat :=
  let r := uchar (ccd k j)
  let rl := uchar (ccd k (j-2))
  let rb := uchar (ccd (k+2) j)
  let rc := uchar (ccd (k+2) (j-2))
  [(r + rl) / 2, (r + rb) / 2, (r + rl + rb + rc) / 4]

/-- The `int` value a green loop body assigns to its plane cell. -/
def greStores (ccd : Grid) (k j : Nat) : List Nat :=
  let gl := uchar (ccd k (j-1))
  let gr := uchar (ccd k (j+1))
  let gt := uchar (ccd (k-1) j)
  let gb := uchar (ccd (k+1) j)
  [(gl + gr + gt + gb) / 4]

/-- The `int` values the blue loop body assigns to plane cells. -/
def bluStores (ccd : Grid) (k j : Nat) : List Nat :=
  let b := uchar (ccd k j)
  let br := uchar (ccd k (j+2))
  let bt := uchar (ccd (k-2) j)
  let bc := uchar (ccd (k-2) (j+2))
  [(b + br) / 2, (b + bt) / 2, (b + br + bt + bc) / 4]

/-- Every cell of the 976 x 848 area of every plane is below 256. -/
def BytePlanes (p : Planes) : Prop :=
  ∀ k j, k < 976 → j < 848 → p.red k j < 256 ∧ p.gre k j < 256 ∧ p.blu k j < 256

end Kdc2bmp

/-! ## The program `kdc2jpg` -/

namespace Kdc2jpg

open Kdc2bmp

/-- The JFIF header written in front of the compressed data. -/
def jpghead : List Nat := [
  0xFF, 0xD8, 0xFF, 0xE0, 0x00, 0x10, 0x4A, 0x46,
  0x49, 0x46, 0x00, 0x01, 0x02, 0x01, 0x00, 0x64,
  0x00, 0x4B, 0x00, 0x00
]

/-- What a run of `kdc2jpg` leaves behind: the diagnostics printed and the
content of the .jpg file, `none` when the file was never opened. -/
structure World where
  diag : List Diag
  jpg : Option (List Nat)

/-- The loop `while(1)` that reads the data in pairs and exits at the end of
the input; `fuel` bounds the number of iterations. -/
def copyLoop : Nat → List Nat → List Nat → List Nat
  | 0, _, jpg => jpg
  | fuel + 1, kdc, jpg =>
    let r1 := fgetc kdc
    let r2 := fgetc r1.2
    if r1.1 < 0 ∨ r2.1 < 0 then jpg
    else copyLoop fuel r2.2 (fputc r1.1.toNat (fputc r2.1.toNat jpg))

/-- The function `main` of `kdc2jpg.c`, with the conventions of `Kdc2bmp.main`.
Every iteration of the copy loop that does not exit consumes two bytes, so the
length of the stream is enough fuel. -/
def main (argc : Nat) (kdc : Option (List Nat)) (canCreate : Bool) : World :=
  if argc ≠ 2 then { diag := [Diag.usage], jpg := none }
  else
    match kdc with
    | none => { diag := [Diag.cantOpen], jpg := none }
    | some file =>
      let r := fread CCDOFF file
      if strcmp (r.1.drop 470) ident ≠ 0 then { diag := [Diag.notDC120], jpg := none }
      else if r.1.getD 707 0 ≠ 7 then { diag := [Diag.notCompressed], jpg := none }
      else if canCreate = false then { diag := [Diag.cantCreate], jpg := none }
      else
        let jpg := fwrite jpghead []
        let k1 := (fgetc r.2).2
        let k2 := (fgetc k1).2
        { diag := [], jpg := some (copyLoop (k2.length + 1) k2 jpg) }

/-- Swapping the two bytes of every consecutive 2-byte unit, as the pass-through
claim words it.  A last byte without a partner is dropped. -/
def swapPairs : List Nat → List Nat
  | a :: b :: rest => b :: a :: swapPairs rest
  | _ => []

/-- A header buffer that passes both tests of `kdc2jpg`: as `Kdc2bmp.goodHeader`
with 7 at offset 707. -/
def compressedHeader : List Nat :=
  List.replicate 470 0 ++ (ident ++ (List.replicate 206 0 ++ (7 :: List.replicate 14972 0)))

end Kdc2jpg

namespace Kdc2bmp

/-! ## Loop rules -/

/-- Invariant rule for `forUp`: an invariant indexed by the loop variable that
every iteration carries from `i` to `i + step` holds when the loop exits, and
with enough fuel the loop exits with the loop variable at or past the bound. -/
theorem forUp_rule {σ : Type} (body : Nat → σ → σ) (bound step : Nat) (hstep : 0 < step)
    (I : Nat → σ → Prop)
    (hbody : ∀ i s, i < bound → I i s → I (i + step) (body i s)) :
    ∀ fuel i s, bound ≤ i + fuel → I i s →
      ∃ e, bound ≤ e ∧ I e (forUp body bound step fuel i s) := by
  intro fuel
  induction fuel with
  | zero =>
    intro i s hf hI
    exact ⟨i, by omega, by simpa [forUp] using hI⟩
  | succ n ih =>
    intro i s hf hI
    by_cases hlt : i < bound
    · have h := ih (i + step) (body i s) (by omega) (hbody i s hlt hI)
      simpa [forUp, hlt] using h
    · exact ⟨i, by omega, by simpa [forUp, hlt] using hI⟩

/-- A property that every iteration preserves is preserved by the loop. -/
theorem forUp_pres {σ : Type} (body : Nat → σ → σ) (bound step start fuel : Nat)
    (Q : σ → Prop)
    (hpres : ∀ i s, Visits start bound step i → Q s → Q (body i s))
    (s : σ) (h : Q s) : Q (forUp body bound step fuel start s) := by
  have key : ∀ fuel i s, start ≤ i → (i - start) % step = 0 → Q s →
      Q (forUp body bound step fuel i s) := by
    intro fuel
    induction fuel with
    | zero => intro i s _ _ hq; simpa [forUp] using hq
    | succ n ih =>
      intro i s hle hmod hq
      by_cases hlt : i < bound
      · have h1 : (i + step - start) % step = 0 := by
          have : i + step - start = (i - start) + step := by omega
          rw [this, Nat.add_mod_right]; exact hmod
        have h2 := ih (i + step) (body i s) (by omega) h1 (hpres i s ⟨hle, hlt, hmod⟩ hq)
        simpa [forUp, hlt] using h2
      · simpa [forUp, hlt] using hq
  exact key fuel start s (Nat.le_refl _) (by simp) h

/-- A property that the iteration at `i0` establishes and every iteration
preserves holds after the loop, provided the fuel lets the loop reach `i0`. -/
theorem forUp_hit {σ : Type} (body : Nat → σ → σ) (bound step start fuel : Nat)
    (Q : σ → Prop) (i0 : Nat) (hstep : 0 < step) (hfuel : bound ≤ start + fuel)
    (hv : Visits start bound step i0)
    (hhit : ∀ s, Q (body i0 s))
    (hpres : ∀ i s, Visits start bound step i → Q s → Q (body i s))
    (s : σ) : Q (forUp body bound step fuel start s) := by
  obtain ⟨h0le, h0lt, h0mod⟩ := hv
  have h := forUp_rule body bound step hstep
    (fun i s => start ≤ i ∧ (i - start) % step = 0 ∧ (i0 < i → Q s))
    (by
      intro i s hlt hI
      obtain ⟨hle, hmod, hq⟩ := hI
      have h1 : (i + step - start) % step = 0 := by
        have : i + step - start = (i - start) + step := by omega
        rw [this, Nat.add_mod_right]; exact hmod
      refine ⟨by omega, h1, ?_⟩
      intro hlt2
      rcases Nat.lt_trichotomy i0 i with h3 | h3 | h3
      · exact hpres i s ⟨hle, hlt, hmod⟩ (hq h3)
      · subst h3; exact hhit s
      · exfalso
        have e1 : i0 - start = (i - start) + (i0 - i) := by omega
        have e2 : (i0 - i) % step = i0 - i := Nat.mod_eq_of_lt (by omega)
        rw [e1, Nat.add_mod, hmod, e2, Nat.zero_add, e2] at h0mod
        omega)
    fuel start s hfuel ⟨Nat.le_refl _, by simp, by omega⟩
  obtain ⟨e, he, _, _, hq⟩ := h
  exact hq (by omega)

/-- Preservation through two nested `forUp` loops. -/
theorem nest_pres {σ : Type} (body : Nat → Nat → σ → σ)
    (bk sk fk k0 bj sj fj j0 : Nat) (Q : σ → Prop)
    (hpres : ∀ k j s, Visits k0 bk sk k → Visits j0 bj sj j → Q s → Q (body k j s))
    (s : σ) (h : Q s) :
    Q (forUp (fun k s => forUp (fun j s => body k j s) bj sj fj j0 s) bk sk fk k0 s) := by
  apply forUp_pres _ _ _ _ _ Q _ s h
  intro k s hk hq
  exact forUp_pres _ _ _ _ _ Q (fun j s hj hq => hpres k j s hk hj hq) s hq

/-- Establishment through two nested `forUp` loops. -/
theorem nest_hit {σ : Type} (body : Nat → Nat → σ → σ)
    (bk sk fk k0 bj sj fj j0 : Nat) (Q : σ → Prop) (k j : Nat)
    (hsk : 0 < sk) (hfk : bk ≤ k0 + fk) (hsj : 0 < sj) (hfj : bj ≤ j0 + fj)
    (hk : Visits k0 bk sk k) (hj : Visits j0 bj sj j)
    (hhit : ∀ s, Q (body k j s))
    (hpres : ∀ k j s, Visits k0 bk sk k → Visits j0 bj sj j → Q s → Q (body k j s))
    (s : σ) :
    Q (forUp (fun k s => forUp (fun j s => body k j s) bj sj fj j0 s) bk sk fk k0 s) := by
  apply forUp_hit _ _ _ _ _ Q k hsk hfk hk
  · intro s
    exact forUp_hit _ _ _ _ _ Q j hsj hfj hj hhit
      (fun j1 s hj1 hq => hpres k j1 s hk hj1 hq) s
  · intro k1 s hk1 hq
    exact forUp_pres _ _ _ _ _ Q (fun j1 s hj1 hq => hpres k1 j1 s hk1 hj1 hq) s hq

/-! ## The row offset table -/

set_option maxRecDepth 100000 in
theorem kdcoff_all :
    kdcoff.all (fun o => decide (0 ≤ o ∧ o < 848 ∧ o % 2 = 0)) = true := by decide

set_option maxRecDepth 100000 in
theorem kdcoff_length : kdcoff.length = 976 := by decide

theorem kdcoffAt_range (k : Nat) (hk : k < 976) :
    0 ≤ kdcoffAt k ∧ kdcoffAt k < 848 ∧ kdcoffAt k % 2 = 0 := by
  have h := kdcoff_all
  rw [List.all_eq_true] at h
  have hm : kdcoffAt k ∈ kdcoff := by
    unfold kdcoffAt
    rw [List.getD_eq_getElem?_getD,
      List.getElem?_eq_getElem (by rw [kdcoff_length]; exact hk)]
    simp
  generalize kdcoffAt k = o at hm ⊢
  have := h _ hm
  simp at this
  omega

/-! ## The reading loop -/

theorem destCol_eq (j : Nat) (off : Int) (h0 : 0 ≤ off) (h1 : off < 848) (hj : j < 848) :
    (destCol j off).toNat = (j + 848 - off.toNat) % 848 := by
  unfold destCol CCDWID
  rw [Int.tmod_eq_emod (by omega) (by omega)]
  omega

theorem fgetc_drop_snd (kdc : List Nat) (i : Nat) :
    (fgetc (kdc.drop i)).2 = kdc.drop (i + 1) := by
  by_cases h : i < kdc.length
  · rw [List.drop_eq_getElem_cons h]; rfl
  · rw [List.drop_eq_nil_of_le (by omega), List.drop_eq_nil_of_le (by omega)]; rfl

theorem byteRead_drop (kdc : List Nat) (n i : Nat) :
    byteRead (kdc.drop n) i = byteRead kdc (n + i) := by
  unfold byteRead
  rw [List.drop_drop]

theorem byteRead_of_lt (kdc : List Nat) (i : Nat) (h : i < kdc.length)
    (hb : ∀ b ∈ kdc, b < 256) : kdc[i]? = some (byteRead kdc i) := by
  have hlt : kdc[i] < 256 := hb _ (List.getElem_mem h)
  unfold byteRead
  rw [List.drop_eq_getElem_cons h, List.getElem?_eq_getElem h]
  simp only [fgetc, ucharOfInt]
  congr 1
  omega

theorem byteRead_eof (kdc : List Nat) (i : Nat) (h : kdc.length ≤ i) :
    byteRead kdc i = 255 := by
  unfold byteRead
  rw [List.drop_eq_nil_of_le h]
  decide

/-- The inner reading loop on row `k`: it consumes 848 bytes and sets cell
`(k, d)` to the byte read at position `(d + off) mod 848`. -/
theorem readRow_spec (k : Nat) (hk : k < 976) (s0 : ReadState) :
    (forUp (fun j s => readCell k j s) CCDWID 1 CCDWID 0 s0).kdc = s0.kdc.drop 848 ∧
    ∀ k1 d, (forUp (fun j s => readCell k j s) CCDWID 1 CCDWID 0 s0).ccd k1 d =
      if k1 = k ∧ d < 848 then byteRead s0.kdc ((d + (kdcoffAt k).toNat) % 848)
      else s0.ccd k1 d := by
  obtain ⟨h0, h1, _⟩ := kdcoffAt_range k hk
  have h := forUp_rule (fun j s => readCell k j s) CCDWID 1 (by decide)
    (fun j s => j ≤ 848 ∧ s.kdc = s0.kdc.drop j ∧
      ∀ k1 d, s.ccd k1 d =
        if k1 = k ∧ d < 848 ∧ (d + (kdcoffAt k).toNat) % 848 < j
        then byteRead s0.kdc ((d + (kdcoffAt k).toNat) % 848) else s0.ccd k1 d)
    (by
      intro j s hlt hI
      obtain ⟨_, hkdc, hccd⟩ := hI
      have hj : j < 848 := by simpa [CCDWID] using hlt
      refine ⟨by omega, ?_, ?_⟩
      · simp only [readCell, hkdc, fgetc_drop_snd]
      · intro k1 d
        simp only [readCell, setCell, hkdc, hccd k1 d, destCol_eq j _ h0 h1 hj]
        by_cases hk1 : k1 = k
        · by_cases hd : d < 848
          · by_cases hsrc : (d + (kdcoffAt k).toNat) % 848 = j
            · have hd2 : d = (j + 848 - (kdcoffAt k).toNat) % 848 := by omega
              rw [if_pos ⟨hk1, hd2⟩, if_pos ⟨hk1, hd, by omega⟩, hsrc]
              rfl
            · have hd2 : ¬ d = (j + 848 - (kdcoffAt k).toNat) % 848 := by omega
              rw [if_neg (fun h => hd2 h.2)]
              by_cases hlt2 : (d + (kdcoffAt k).toNat) % 848 < j
              · rw [if_pos ⟨hk1, hd, hlt2⟩, if_pos ⟨hk1, hd, by omega⟩]
              · rw [if_neg (fun h => hlt2 h.2.2), if_neg (fun h => by omega)]
          · have hd2 : ¬ d = (j + 848 - (kdcoffAt k).toNat) % 848 := by omega
            rw [if_neg (fun h => hd2 h.2), if_neg (fun h => hd h.2.1),
              if_neg (fun h => hd h.2.1)]
        · rw [if_neg (fun h => hk1 h.1), if_neg (fun h => hk1 h.1),
            if_neg (fun h => hk1 h.1)])
    CCDWID 0 s0 (by decide) ⟨by omega, by simp, by intro k1 d; simp⟩
  obtain ⟨e, he, hle, hkdc, hccd⟩ := h
  have he2 : e = 848 := by simp only [CCDWID] at he; omega
  subst he2
  refine ⟨hkdc, ?_⟩
  intro k1 d
  rw [hccd k1 d]
  by_cases hc : k1 = k ∧ d < 848
  · rw [if_pos hc, if_pos ⟨hc.1, hc.2, Nat.mod_lt _ (by decide)⟩]
  · rw [if_neg hc, if_neg (fun h => hc ⟨h.1, h.2.1⟩)]

/-- The reading loop: it consumes 848 * 976 bytes, and cell `(k, d)` of the
sensor array holds the byte read at position `848 * k + (d + kdcoff[k]) mod 848`. -/
theorem readCcd_spec (s0 : ReadState) :
    (readCcd s0).kdc = s0.kdc.drop (848 * 976) ∧
    ∀ k d, (readCcd s0).ccd k d =
      if k < 976 ∧ d < 848 then byteRead s0.kdc (848 * k + (d + (kdcoffAt k).toNat) % 848)
      else s0.ccd k d := by
  have h := forUp_rule
    (fun k s => forUp (fun j s => readCell k j s) CCDWID 1 CCDWID 0 s) CCDHEI 1 (by decide)
    (fun k s => k ≤ 976 ∧ s.kdc = s0.kdc.drop (848 * k) ∧
      ∀ k1 d, s.ccd k1 d =
        if k1 < k ∧ d < 848
        then byteRead s0.kdc (848 * k1 + (d + (kdcoffAt k1).toNat) % 848) else s0.ccd k1 d)
    (by
      intro k s hlt hI
      obtain ⟨_, hkdc, hccd⟩ := hI
      have hk : k < 976 := by simpa [CCDHEI] using hlt
      obtain ⟨r1, r2⟩ := readRow_spec k hk s
      refine ⟨by omega, ?_, ?_⟩
      · beta_reduce
        rw [r1, hkdc, List.drop_drop, Nat.mul_succ]
      · intro k1 d
        beta_reduce
        rw [r2 k1 d, hccd k1 d, hkdc, byteRead_drop]
        by_cases hk1 : k1 = k
        · by_cases hd : d < 848
          · rw [if_pos ⟨hk1, hd⟩, if_pos ⟨by omega, hd⟩, hk1]
          · rw [if_neg (fun h => hd h.2), if_neg (fun h => hd h.2), if_neg (fun h => hd h.2)]
        · rw [if_neg (fun h => hk1 h.1)]
          by_cases hc : k1 < k ∧ d < 848
          · rw [if_pos hc, if_pos ⟨by omega, hc.2⟩]
          · rw [if_neg hc, if_neg (fun h => hc ⟨by omega, h.2⟩)])
    CCDHEI 0 s0 (by decide) ⟨by omega, by simp, by intro k1 d; simp⟩
  obtain ⟨e, he, hle, hkdc, hccd⟩ := h
  have he2 : e = 976 := by simp only [CCDHEI] at he; omega
  subst he2
  unfold readCcd
  exact ⟨hkdc, hccd⟩

theorem rescrambleRow_spec (off : Int) (h0 : 0 ≤ off) (h1 : off < 848) (row : Nat → Nat)
    (c : Nat) :
    rescrambleRow off row c =
      if c < 848 then row ((c + 848 - off.toNat) % 848) else 0 := by
  unfold rescrambleRow
  have h := forUp_rule
    (fun d (out : Nat → Nat) =>
      fun c => if c = (((d : Int) + off) % (CCDWID : Int)).toNat then row d else out c)
    CCDWID 1 (by decide)
    (fun d out => d ≤ 848 ∧ ∀ c, out c =
      if c < 848 ∧ (c + 848 - off.toNat) % 848 < d
      then row ((c + 848 - off.toNat) % 848) else 0)
    (by
      intro d out hlt hI
      obtain ⟨_, hout⟩ := hI
      have hd : d < 848 := by simpa [CCDWID] using hlt
      refine ⟨by omega, ?_⟩
      intro c
      beta_reduce
      have hcol : (((d : Int) + off) % (CCDWID : Int)).toNat = (d + off.toNat) % 848 := by
        unfold CCDWID; omega
      rw [hcol, hout c]
      by_cases hc : c = (d + off.toNat) % 848
      · have hd2 : (c + 848 - off.toNat) % 848 = d := by omega
        rw [if_pos hc, if_pos ⟨by omega, by omega⟩, hd2]
      · rw [if_neg hc]
        by_cases hc2 : c < 848 ∧ (c + 848 - off.toNat) % 848 < d
        · rw [if_pos hc2, if_pos ⟨hc2.1, by omega⟩]
        · rw [if_neg hc2, if_neg (fun h => hc2 ⟨h.1, by omega⟩)])
    CCDWID 0 (fun _ => 0) (by simp) ⟨by omega, by intro c; simp⟩
  obtain ⟨e, he, hle, hout⟩ := h
  have he2 : e = 848 := by simp only [CCDWID] at he; omega
  subst he2
  rw [hout c]
  by_cases hc : c < 848
  · rw [if_pos hc, if_pos ⟨hc, Nat.mod_lt _ (by decide)⟩]
  · rw [if_neg hc, if_neg (fun h => hc h.1)]

theorem descrambleRow_spec (k : Nat) (hk : k < 976) (raw : Nat → Nat)
    (hraw : ∀ j, j < 848 → raw j < 256) (d : Nat) (hd : d < 848) :
    descrambleRow k raw d = raw ((d + (kdcoffAt k).toNat) % 848) := by
  unfold descrambleRow
  have hrow := (readRow_spec k hk
    { ccd := fun _ _ => 0, kdc := (List.range CCDWID).map raw }).2 k d
  rw [hrow, if_pos ⟨rfl, hd⟩]
  dsimp only
  have hlt : (d + (kdcoffAt k).toNat) % 848 < 848 := Nat.mod_lt _ (by decide)
  have hb : ∀ b ∈ (List.range CCDWID).map raw, b < 256 := by
    intro b hb
    rw [List.mem_map] at hb
    obtain ⟨a, ha, rfl⟩ := hb
    exact hraw a (by simpa [CCDWID] using ha)
  have h := byteRead_of_lt ((List.range CCDWID).map raw) ((d + (kdcoffAt k).toNat) % 848)
    (by simpa [CCDWID] using hlt) hb
  rw [List.getElem?_map, List.getElem?_range (by simpa [CCDWID] using hlt)] at h
  simp only [Option.map_some'] at h
  exact (Option.some.inj h).symm

/-- C1. Descrambler placement: once the reading loop has run on a payload of
at least 848 * 976 bytes, the byte at payload position `848 * k + j` is in cell
`(k, (j - kdcoff[k] + 848) mod 848)` of the sensor array, and cell `(k, d)`
holds the payload byte at position `848 * k + (d + kdcoff[k]) mod 848`: every
row is the raw row rotated left by `kdcoff[k]`. -/
theorem descrambler_placement (payload : List Nat) (ccd0 : Grid)
    (hlen : 848 * 976 ≤ payload.length) (hbytes : ∀ b ∈ payload, b < 256)
    (k : Nat) (hk : k < 976) :
    (∀ j : Nat, j < 848 → payload[848 * k + j]? =
      some ((readCcd ⟨ccd0, payload⟩).ccd k
        ((((j : Int) - kdcoffAt k + 848) % 848).toNat))) ∧
    (∀ d : Nat, d < 848 → some ((readCcd ⟨ccd0, payload⟩).ccd k d) =
      payload[848 * k + (((d : Int) + kdcoffAt k) % 848).toNat]?) := by
  obtain ⟨h0, h1, _⟩ := kdcoffAt_range k hk
  have hspec := (readCcd_spec ⟨ccd0, payload⟩).2
  constructor
  · intro j hj
    have hcol : ((((j : Int) - kdcoffAt k + 848) % 848).toNat) =
        (j + 848 - (kdcoffAt k).toNat) % 848 := by omega
    have hlt : (j + 848 - (kdcoffAt k).toNat) % 848 < 848 := Nat.mod_lt _ (by decide)
    have hsrc : ((j + 848 - (kdcoffAt k).toNat) % 848 + (kdcoffAt k).toNat) % 848 = j := by
      omega
    rw [hcol, hspec k _, if_pos ⟨hk, hlt⟩, hsrc]
    exact byteRead_of_lt payload _ (by omega) hbytes
  · intro d hd
    have hcol : ((((d : Int) + kdcoffAt k) % 848).toNat) =
        (d + (kdcoffAt k).toNat) % 848 := by omega
    have hlt : (d + (kdcoffAt k).toNat) % 848 < 848 := Nat.mod_lt _ (by decide)
    rw [hcol, hspec k d, if_pos ⟨hk, hd⟩]
    exact (byteRead_of_lt payload _ (by omega) hbytes).symm

/-- Witness for C1: the payload whose byte at position `i` is `i mod 256`, row 1. -/
theorem descrambler_placement_witness :
    (∀ j : Nat, j < 848 → ((List.range (848 * 976)).map (fun i => i % 256))[848 * 1 + j]? =
      some ((readCcd ⟨fun _ _ => 0, (List.range (848 * 976)).map (fun i => i % 256)⟩).ccd 1
        ((((j : Int) - kdcoffAt 1 + 848) % 848).toNat))) ∧
    (∀ d : Nat, d < 848 →
      some ((readCcd ⟨fun _ _ => 0, (List.range (848 * 976)).map (fun i => i % 256)⟩).ccd 1 d) =
      ((List.range (848 * 976)).map (fun i => i % 256))[848 * 1 +
        (((d : Int) + kdcoffAt 1) % 848).toNat]?) :=
  descrambler_placement ((List.range (848 * 976)).map (fun i => i % 256)) (fun _ _ => 0)
    (by simp)
    (by
      intro b hb
      rw [List.mem_map] at hb
      obtain ⟨a, _, rfl⟩ := hb
      exact Nat.mod_lt _ (by decide))
    1 (by decide)

/-- C2. Descramble round trip: for every row index `k` and every raw row of
848 bytes, unrotating the row with `kdcoff[k]` and re-scrambling it with the
same offset gives the raw row back; the column map
`j -> (j - kdcoff[k] + 848) mod 848` stays in `[0, 848)` and every column of
`[0, 848)` is the image of exactly one `j` of `[0, 848)`. -/
theorem descramble_roundtrip (k : Nat) (hk : k < 976) (raw : Nat → Nat)
    (hraw : ∀ j, j < 848 → raw j < 256) :
    (∀ j, j < 848 → rescrambleRow (kdcoffAt k) (descrambleRow k raw) j = raw j) ∧
    (∀ j, j < 848 → (destCol j (kdcoffAt k)).toNat < 848) ∧
    (∀ d, d < 848 → ∃! j, j < 848 ∧ (destCol j (kdcoffAt k)).toNat = d) := by
  obtain ⟨h0, h1, _⟩ := kdcoffAt_range k hk
  refine ⟨?_, ?_, ?_⟩
  · intro j hj
    have hlt : (j + 848 - (kdcoffAt k).toNat) % 848 < 848 := Nat.mod_lt _ (by decide)
    rw [rescrambleRow_spec _ h0 h1, if_pos hj, descrambleRow_spec k hk raw hraw _ hlt]
    congr 1
    omega
  · intro j hj
    rw [destCol_eq j _ h0 h1 hj]
    exact Nat.mod_lt _ (by decide)
  · intro d hd
    refine ⟨(d + (kdcoffAt k).toNat) % 848, ⟨Nat.mod_lt _ (by decide), ?_⟩, ?_⟩
    · rw [destCol_eq _ _ h0 h1 (Nat.mod_lt _ (by decide))]
      omega
    · intro j hj
      obtain ⟨hj1, hj2⟩ := hj
      rw [destCol_eq j _ h0 h1 hj1] at hj2
      omega

/-- Witness for C2: row 1 (offset 828) and the raw row `j -> j mod 256`. -/
theorem descramble_roundtrip_witness :
    (∀ j, j < 848 →
      rescrambleRow (kdcoffAt 1) (descrambleRow 1 (fun j => j % 256)) j = j % 256) ∧
    (∀ j, j < 848 → (destCol j (kdcoffAt 1)).toNat < 848) ∧
    (∀ d, d < 848 → ∃! j, j < 848 ∧ (destCol j (kdcoffAt 1)).toNat = d) :=
  descramble_roundtrip 1 (by decide) (fun j => j % 256)
    (fun j _ => Nat.mod_lt _ (by decide))

/-! ## Pixel replication -/

theorem uchar_of_lt (n : Nat) (h : n < 256) : uchar n = n := Nat.mod_eq_of_lt h

theorem replicateBody_frame (ccd : Grid) (k1 j1 : Nat) (s : Planes) (k j : Nat)
    (h : ¬ ((k = k1 ∨ k = k1 + 1) ∧ (j = j1 ∨ j = j1 + 1))) :
    (replicateBody ccd k1 j1 s).red k j = s.red k j ∧
    (replicateBody ccd k1 j1 s).gre k j = s.gre k j ∧
    (replicateBody ccd k1 j1 s).blu k j = s.blu k j := by
  simp only [replicateBody, setRed, setGre, setBlu, setCell]
  refine ⟨?_, ?_, ?_⟩ <;> split_ifs <;> first | rfl | omega

theorem replicateBody_hit (ccd : Grid) (k1 j1 : Nat) (s : Planes) (k j : Nat)
    (hk : k = k1 ∨ k = k1 + 1) (hj : j = j1 ∨ j = j1 + 1) :
    (replicateBody ccd k1 j1 s).red k j = uchar (ccd k1 (j1 + 1)) ∧
    (replicateBody ccd k1 j1 s).gre k j =
      (if k = k1 then uchar (ccd k1 j1) else uchar (ccd (k1 + 1) (j1 + 1))) ∧
    (replicateBody ccd k1 j1 s).blu k j = uchar (ccd (k1 + 1) j1) := by
  simp only [replicateBody, setRed, setGre, setBlu, setCell]
  refine ⟨?_, ?_, ?_⟩ <;> split_ifs <;> first | rfl | omega

/-- After the replication pass every cell `(k, j)` of the 976 x 848 planes holds
the sample of its 2 x 2 block, whatever the planes held before. -/
theorem replicate_cell (ccd : Grid) (p0 : Planes) (k j : Nat) (hk : k < 976) (hj : j < 848) :
    (replicate ccd p0).red k j = uchar (ccd (2 * (k / 2)) (2 * (j / 2) + 1)) ∧
    (replicate ccd p0).gre k j =
      (if k = 2 * (k / 2) then uchar (ccd (2 * (k / 2)) (2 * (j / 2)))
       else uchar (ccd (2 * (k / 2) + 1) (2 * (j / 2) + 1))) ∧
    (replicate ccd p0).blu k j = uchar (ccd (2 * (k / 2) + 1) (2 * (j / 2))) := by
  unfold replicate
  apply nest_hit (fun k j p => replicateBody ccd k j p) CCDHEI 2 CCDHEI 0 CCDWID 2 CCDWID 0
    (fun s => s.red k j = uchar (ccd (2 * (k / 2)) (2 * (j / 2) + 1)) ∧
      s.gre k j =
        (if k = 2 * (k / 2) then uchar (ccd (2 * (k / 2)) (2 * (j / 2)))
         else uchar (ccd (2 * (k / 2) + 1) (2 * (j / 2) + 1))) ∧
      s.blu k j = uchar (ccd (2 * (k / 2) + 1) (2 * (j / 2))))
    (2 * (k / 2)) (2 * (j / 2)) (by decide) (by simp) (by decide) (by simp)
  · simp only [Visits, CCDHEI]; omega
  · simp only [Visits, CCDWID]; omega
  · intro s
    exact replicateBody_hit ccd _ _ s k j (by omega) (by omega)
  · intro k1 j1 s hk1 hj1 hq
    simp only [Visits, CCDHEI, CCDWID] at hk1 hj1
    by_cases hb : k1 = 2 * (k / 2) ∧ j1 = 2 * (j / 2)
    · obtain ⟨rfl, rfl⟩ := hb
      exact replicateBody_hit ccd _ _ s k j (by omega) (by omega)
    · obtain ⟨f1, f2, f3⟩ := replicateBody_frame ccd k1 j1 s k j (by omega)
      rw [f1, f2, f3]
      exact hq

/-- C3. Phase 1 replication fills every cell: for every sensor array of
`unsigned char` samples, every starting content of the planes and every cell
`(k, j)` with `k < 976`, `j < 848`, after the replication pass, with
`k0 = 2 * (k / 2)` and `j0 = 2 * (j / 2)`: `red[k][j] = ccd[k0][j0+1]`,
`blu[k][j] = ccd[k0+1][j0]`, and `gre[k][j]` is `ccd[k0][j0]` for even `k` and
`ccd[k0+1][j0+1]` for odd `k`. -/
theorem replication_fills_every_cell (ccd : Grid)
    (hccd : ∀ k j, k < 976 → j < 848 → ccd k j < 256) (p0 : Planes)
    (k j : Nat) (hk : k < 976) (hj : j < 848) :
    (replicate ccd p0).red k j = ccd (2 * (k / 2)) (2 * (j / 2) + 1) ∧
    (replicate ccd p0).blu k j = ccd (2 * (k / 2) + 1) (2 * (j / 2)) ∧
    (replicate ccd p0).gre k j =
      (if k % 2 = 0 then ccd (2 * (k / 2)) (2 * (j / 2))
       else ccd (2 * (k / 2) + 1) (2 * (j / 2) + 1)) := by
  obtain ⟨h1, h2, h3⟩ := replicate_cell ccd p0 k j hk hj
  refine ⟨?_, ?_, ?_⟩
  · rw [h1, uchar_of_lt _ (hccd _ _ (by omega) (by omega))]
  · rw [h3, uchar_of_lt _ (hccd _ _ (by omega) (by omega))]
  · rw [h2]
    by_cases he : k % 2 = 0
    · rw [if_pos he, if_pos (by omega), uchar_of_lt _ (hccd _ _ (by omega) (by omega))]
    · rw [if_neg he, if_neg (by omega), uchar_of_lt _ (hccd _ _ (by omega) (by omega))]

/-- Witness for C3: the sensor array `ccd[k][j] = (3 k + 5 j) mod 256`, cell (5, 8). -/
theorem replication_fills_every_cell_witness :
    (replicate (fun k j => (3 * k + 5 * j) % 256) zeroPlanes).red 5 8 =
      (fun k j => (3 * k + 5 * j) % 256) (2 * (5 / 2)) (2 * (8 / 2) + 1) ∧
    (replicate (fun k j => (3 * k + 5 * j) % 256) zeroPlanes).blu 5 8 =
      (fun k j => (3 * k + 5 * j) % 256) (2 * (5 / 2) + 1) (2 * (8 / 2)) ∧
    (replicate (fun k j => (3 * k + 5 * j) % 256) zeroPlanes).gre 5 8 =
      (if 5 % 2 = 0 then (fun k j => (3 * k + 5 * j) % 256) (2 * (5 / 2)) (2 * (8 / 2))
       else (fun k j => (3 * k + 5 * j) % 256) (2 * (5 / 2) + 1) (2 * (8 / 2) + 1)) :=
  replication_fills_every_cell (fun k j => (3 * k + 5 * j) % 256)
    (fun _ _ _ _ => Nat.mod_lt _ (by decide)) zeroPlanes 5 8 (by decide) (by decide)

/-! ## Interpolation passes -/

theorem redBody_frame (ccd : Grid) (k1 j1 : Nat) (s : Planes) (k j : Nat)
    (h : ¬ (k = k1 ∧ j = j1 - 1) ∧ ¬ (k = k1 + 1 ∧ j = j1) ∧ ¬ (k = k1 + 1 ∧ j = j1 - 1)) :
    (redBody ccd k1 j1 s).red k j = s.red k j := by
  simp only [redBody, setRed, setCell]
  split_ifs <;> first | rfl | omega

theorem redBody_hit (ccd : Grid) (k1 j1 : Nat) (s : Planes) (hj1 : 1 ≤ j1) :
    (redBody ccd k1 j1 s).red k1 (j1 - 1) =
      uchar ((uchar (ccd k1 j1) + uchar (ccd k1 (j1 - 2))) / 2) ∧
    (redBody ccd k1 j1 s).red (k1 + 1) j1 =
      uchar ((uchar (ccd k1 j1) + uchar (ccd (k1 + 2) j1)) / 2) ∧
    (redBody ccd k1 j1 s).red (k1 + 1) (j1 - 1) =
      uchar ((uchar (ccd k1 j1) + uchar (ccd k1 (j1 - 2)) + uchar (ccd (k1 + 2) j1)
        + uchar (ccd (k1 + 2) (j1 - 2))) / 4) := by
  have h1 : ¬ (j1 - 1 = j1) := by omega
  have h2 : ¬ (j1 = j1 - 1) := by omega
  simp [redBody, setRed, setCell, h1, h2]

theorem greBody_frame (ccd : Grid) (k1 j1 : Nat) (s : Planes) (k j : Nat)
    (h : ¬ (k = k1 ∧ j = j1)) : (greBody ccd k1 j1 s).gre k j = s.gre k j := by
  simp only [greBody, setGre, setCell, if_neg h]

theorem greBody_hit (ccd : Grid) (k1 j1 : Nat) (s : Planes) :
    (greBody ccd k1 j1 s).gre k1 j1 =
      uchar ((uchar (ccd k1 (j1 - 1)) + uchar (ccd k1 (j1 + 1)) + uchar (ccd (k1 - 1) j1)
        + uchar (ccd (k1 + 1) j1)) / 4) := by
  simp [greBody, setGre, setCell]

theorem bluBody_frame (ccd : Grid) (k1 j1 : Nat) (s : Planes) (k j : Nat)
    (h : ¬ (k = k1 ∧ j = j1 + 1) ∧ ¬ (k = k1 - 1 ∧ j = j1) ∧ ¬ (k = k1 - 1 ∧ j = j1 + 1)) :
    (bluBody ccd k1 j1 s).blu k j = s.blu k j := by
  simp only [bluBody, setBlu, setCell]
  split_ifs <;> first | rfl | omega

theorem bluBody_hit (ccd : Grid) (k1 j1 : Nat) (s : Planes) (hk1 : 1 ≤ k1) :
    (bluBody ccd k1 j1 s).blu k1 (j1 + 1) =
      uchar ((uchar (ccd k1 j1) + uchar (ccd k1 (j1 + 2))) / 2) ∧
    (bluBody ccd k1 j1 s).blu (k1 - 1) j1 =
      uchar ((uchar (ccd k1 j1) + uchar (ccd (k1 - 2) j1)) / 2) ∧
    (bluBody ccd k1 j1 s).blu (k1 - 1) (j1 + 1) =
      uchar ((uchar (ccd k1 j1) + uchar (ccd k1 (j1 + 2)) + uchar (ccd (k1 - 2) j1)
        + uchar (ccd (k1 - 2) (j1 + 2))) / 4) := by
  have h1 : ¬ (k1 - 1 = k1) := by omega
  have h2 : ¬ (k1 = k1 - 1) := by omega
  simp [bluBody, setBlu, setCell, h1, h2]

/-- The red pass leaves the green and the blue plane alone. -/
theorem redPass_others (ccd : Grid) (p : Planes) :
    (redPass ccd p).gre = p.gre ∧ (redPass ccd p).blu = p.blu := by
  unfold redPass
  exact nest_pres (fun k j s => redBody ccd k j s) _ _ _ _ _ _ _ _
    (fun s => s.gre = p.gre ∧ s.blu = p.blu) (fun _ _ _ _ _ hq => hq) p ⟨rfl, rfl⟩

/-- The green passes leave the red and the blue plane alone. -/
theorem grePassEven_others (ccd : Grid) (p : Planes) :
    (grePassEven ccd p).red = p.red ∧ (grePassEven ccd p).blu = p.blu := by
  unfold grePassEven
  exact nest_pres (fun k j s => greBody ccd k j s) _ _ _ _ _ _ _ _
    (fun s => s.red = p.red ∧ s.blu = p.blu) (fun _ _ _ _ _ hq => hq) p ⟨rfl, rfl⟩

theorem grePassOdd_others (ccd : Grid) (p : Planes) :
    (grePassOdd ccd p).red = p.red ∧ (grePassOdd ccd p).blu = p.blu := by
  unfold grePassOdd
  exact nest_pres (fun k j s => greBody ccd k j s) _ _ _ _ _ _ _ _
    (fun s => s.red = p.red ∧ s.blu = p.blu) (fun _ _ _ _ _ hq => hq) p ⟨rfl, rfl⟩

/-- The blue pass leaves the red and the green plane alone. -/
theorem bluPass_others (ccd : Grid) (p : Planes) :
    (bluPass ccd p).red = p.red ∧ (bluPass ccd p).gre = p.gre := by
  unfold bluPass
  exact nest_pres (fun k j s => bluBody ccd k j s) _ _ _ _ _ _ _ _
    (fun s => s.red = p.red ∧ s.gre = p.gre) (fun _ _ _ _ _ hq => hq) p ⟨rfl, rfl⟩

/-- The red pass at a mosaic R position `(k, j)`: the three cells it writes. -/
theorem redPass_cell (ccd : Grid) (p : Planes) (k j : Nat)
    (hk2 : k % 2 = 0) (hj2 : j % 2 = 1) (hk : 2 ≤ k ∧ k < 974) (hj : 3 ≤ j ∧ j < 846) :
    (redPass ccd p).red k (j - 1) =
      uchar ((uchar (ccd k j) + uchar (ccd k (j - 2))) / 2) ∧
    (redPass ccd p).red (k + 1) j =
      uchar ((uchar (ccd k j) + uchar (ccd (k + 2) j)) / 2) ∧
    (redPass ccd p).red (k + 1) (j - 1) =
      uchar ((uchar (ccd k j) + uchar (ccd k (j - 2)) + uchar (ccd (k + 2) j)
        + uchar (ccd (k + 2) (j - 2))) / 4) := by
  unfold redPass
  apply nest_hit (fun k j p => redBody ccd k j p) (CCDHEI - 2) 2 CCDHEI 2
    (CCDWID - 2) 2 CCDWID 3
    (fun s => s.red k (j - 1) =
        uchar ((uchar (ccd k j) + uchar (ccd k (j - 2))) / 2) ∧
      s.red (k + 1) j =
        uchar ((uchar (ccd k j) + uchar (ccd (k + 2) j)) / 2) ∧
      s.red (k + 1) (j - 1) =
        uchar ((uchar (ccd k j) + uchar (ccd k (j - 2)) + uchar (ccd (k + 2) j)
          + uchar (ccd (k + 2) (j - 2))) / 4))
    k j (by decide) (by omega) (by decide) (by omega)
  · simp only [Visits, CCDHEI]; omega
  · simp only [Visits, CCDWID]; omega
  · intro s
    exact redBody_hit ccd k j s (by omega)
  · intro k1 j1 s hk1 hj1 hq
    simp only [Visits, CCDHEI, CCDWID] at hk1 hj1
    by_cases hb : k1 = k ∧ j1 = j
    · obtain ⟨rfl, rfl⟩ := hb
      exact redBody_hit ccd _ _ s (by omega)
    · rw [redBody_frame ccd k1 j1 s _ _ (by omega), redBody_frame ccd k1 j1 s _ _ (by omega),
        redBody_frame ccd k1 j1 s _ _ (by omega)]
      exact hq

/-- A green pass visiting rows from `k0` and columns from `j0` in steps of 2:
the cell it writes at a visited position. -/
theorem grePass_cell (ccd : Grid) (p : Planes) (k0 j0 k j : Nat)
    (hk : Visits k0 (CCDHEI - 2) 2 k) (hj : Visits j0 (CCDWID - 2) 2 j)
    (hk0 : k0 ≤ 4) (hj0 : j0 ≤ 4) :
    (forUp (fun k p => forUp (fun j p => greBody ccd k j p) (CCDWID - 2) 2 CCDWID j0 p)
      (CCDHEI - 2) 2 CCDHEI k0 p).gre k j =
      uchar ((uchar (ccd k (j - 1)) + uchar (ccd k (j + 1)) + uchar (ccd (k - 1) j)
        + uchar (ccd (k + 1) j)) / 4) := by
  apply nest_hit (fun k j p => greBody ccd k j p) (CCDHEI - 2) 2 CCDHEI k0
    (CCDWID - 2) 2 CCDWID j0
    (fun s => s.gre k j =
      uchar ((uchar (ccd k (j - 1)) + uchar (ccd k (j + 1)) + uchar (ccd (k - 1) j)
        + uchar (ccd (k + 1) j)) / 4))
    k j (by decide) (by simp only [CCDHEI]; omega) (by decide) (by simp only [CCDWID]; omega)
    hk hj
  · intro s
    exact greBody_hit ccd k j s
  · intro k1 j1 s hk1 hj1 hq
    by_cases hb : k1 = k ∧ j1 = j
    · obtain ⟨rfl, rfl⟩ := hb
      exact greBody_hit ccd _ _ s
    · rw [greBody_frame ccd k1 j1 s _ _ (fun h => hb ⟨h.1.symm, h.2.symm⟩)]
      exact hq

/-- A green pass leaves every cell it does not visit alone. -/
theorem grePass_frame (ccd : Grid) (p : Planes) (k0 j0 k j : Nat)
    (h : ¬ (Visits k0 (CCDHEI - 2) 2 k ∧ Visits j0 (CCDWID - 2) 2 j)) :
    (forUp (fun k p => forUp (fun j p => greBody ccd k j p) (CCDWID - 2) 2 CCDWID j0 p)
      (CCDHEI - 2) 2 CCDHEI k0 p).gre k j = p.gre k j := by
  apply nest_pres (fun k j p => greBody ccd k j p) (CCDHEI - 2) 2 CCDHEI k0
    (CCDWID - 2) 2 CCDWID j0 (fun s => s.gre k j = p.gre k j) _ p rfl
  intro k1 j1 s hk1 hj1 hq
  rw [greBody_frame ccd k1 j1 s _ _ (fun hc => h (by rw [hc.1, hc.2]; exact ⟨hk1, hj1⟩))]
  exact hq

/-- The blue pass at a mosaic B position `(k, j)`: the three cells it writes. -/
theorem bluPass_cell (ccd : Grid) (p : Planes) (k j : Nat)
    (hk2 : k % 2 = 1) (hj2 : j % 2 = 0) (hk : 3 ≤ k ∧ k < 974) (hj : 2 ≤ j ∧ j < 846) :
    (bluPass ccd p).blu k (j + 1) =
      uchar ((uchar (ccd k j) + uchar (ccd k (j + 2))) / 2) ∧
    (bluPass ccd p).blu (k - 1) j =
      uchar ((uchar (ccd k j) + uchar (ccd (k - 2) j)) / 2) ∧
    (bluPass ccd p).blu (k - 1) (j + 1) =
      uchar ((uchar (ccd k j) + uchar (ccd k (j + 2)) + uchar (ccd (k - 2) j)
        + uchar (ccd (k - 2) (j + 2))) / 4) := by
  unfold bluPass
  apply nest_hit (fun k j p => bluBody ccd k j p) (CCDHEI - 2) 2 CCDHEI 3
    (CCDWID - 2) 2 CCDWID 2
    (fun s => s.blu k (j + 1) =
        uchar ((uchar (ccd k j) + uchar (ccd k (j + 2))) / 2) ∧
      s.blu (k - 1) j =
        uchar ((uchar (ccd k j) + uchar (ccd (k - 2) j)) / 2) ∧
      s.blu (k - 1) (j + 1) =
        uchar ((uchar (ccd k j) + uchar (ccd k (j + 2)) + uchar (ccd (k - 2) j)
          + uchar (ccd (k - 2) (j + 2))) / 4))
    k j (by decide) (by omega) (by decide) (by omega)
  · simp only [Visits, CCDHEI]; omega
  · simp only [Visits, CCDWID]; omega
  · intro s
    exact bluBody_hit ccd k j s (by omega)
  · intro k1 j1 s hk1 hj1 hq
    simp only [Visits, CCDHEI, CCDWID] at hk1 hj1
    by_cases hb : k1 = k ∧ j1 = j
    · obtain ⟨rfl, rfl⟩ := hb
      exact bluBody_hit ccd _ _ s (by omega)
    · rw [bluBody_frame ccd k1 j1 s _ _ (by omega), bluBody_frame ccd k1 j1 s _ _ (by omega),
        bluBody_frame ccd k1 j1 s _ _ (by omega)]
      exact hq

/-- The planes of `demosaic`, each in terms of the last pass that writes it. -/
theorem demosaic_planes (ccd : Grid) :
    (demosaic ccd).red = (redPass ccd (replicate ccd zeroPlanes)).red ∧
    (demosaic ccd).gre =
      (grePassOdd ccd (grePassEven ccd (redPass ccd (replicate ccd zeroPlanes)))).gre ∧
    (demosaic ccd).blu =
      (bluPass ccd
        (grePassOdd ccd (grePassEven ccd (redPass ccd (replicate ccd zeroPlanes))))).blu := by
  unfold demosaic interpolate
  refine ⟨?_, ?_, rfl⟩
  · rw [(bluPass_others ccd _).1, (grePassOdd_others ccd _).1, (grePassEven_others ccd _).1]
  · rw [(bluPass_others ccd _).2]

/-- C4. Red refinement: for every sensor array of `unsigned char` samples and
every mosaic R position `(k, j)` (`k` even, `j` odd, `2 <= k < 974`,
`3 <= j < 846`), the final red plane has `red[k][j-1] = (r + rl) / 2`,
`red[k+1][j] = (r + rb) / 2` and `red[k+1][j-1] = (r + rl + rb + rc) / 4`, with
`r = ccd[k][j]`, `rl = ccd[k][j-2]`, `rb = ccd[k+2][j]`, `rc = ccd[k+2][j-2]` and
truncating division of the exact sums. -/
theorem red_refinement (ccd : Grid) (hccd : ∀ k j, k < 976 → j < 848 → ccd k j < 256)
    (k j : Nat) (hk2 : k % 2 = 0) (hj2 : j % 2 = 1)
    (hk : 2 ≤ k ∧ k < 974) (hj : 3 ≤ j ∧ j < 846) :
    (demosaic ccd).red k (j - 1) = (ccd k j + ccd k (j - 2)) / 2 ∧
    (demosaic ccd).red (k + 1) j = (ccd k j + ccd (k + 2) j) / 2 ∧
    (demosaic ccd).red (k + 1) (j - 1) =
      (ccd k j + ccd k (j - 2) + ccd (k + 2) j + ccd (k + 2) (j - 2)) / 4 := by
  have hr := hccd k j (by omega) (by omega)
  have hrl := hccd k (j - 2) (by omega) (by omega)
  have hrb := hccd (k + 2) j (by omega) (by omega)
  have hrc := hccd (k + 2) (j - 2) (by omega) (by omega)
  obtain ⟨h1, h2, h3⟩ := redPass_cell ccd (replicate ccd zeroPlanes) k j hk2 hj2 hk hj
  rw [(demosaic_planes ccd).1, h1, h2, h3]
  simp only [uchar]
  omega

/-- Witness for C4: the sensor array `ccd[k][j] = (37 k + 91 j) mod 256` at the
R position (10, 21). -/
theorem red_refinement_witness :
    (demosaic (fun k j => (37 * k + 91 * j) % 256)).red 10 (21 - 1) =
      ((37 * 10 + 91 * 21) % 256 + (37 * 10 + 91 * (21 - 2)) % 256) / 2 ∧
    (demosaic (fun k j => (37 * k + 91 * j) % 256)).red (10 + 1) 21 =
      ((37 * 10 + 91 * 21) % 256 + (37 * (10 + 2) + 91 * 21) % 256) / 2 ∧
    (demosaic (fun k j => (37 * k + 91 * j) % 256)).red (10 + 1) (21 - 1) =
      ((37 * 10 + 91 * 21) % 256 + (37 * 10 + 91 * (21 - 2)) % 256
        + (37 * (10 + 2) + 91 * 21) % 256 + (37 * (10 + 2) + 91 * (21 - 2)) % 256) / 4 :=
  red_refinement (fun k j => (37 * k + 91 * j) % 256)
    (fun _ _ _ _ => Nat.mod_lt _ (by decide)) 10 21 (by decide) (by decide)
    (by decide) (by decide)

/-- C5. Green refinement: for every sensor array of `unsigned char` samples and
every non-green mosaic position `(k, j)`, either `k` even, `j` odd,
`2 <= k < 974`, `3 <= j < 846`, or `k` odd, `j` even, `3 <= k < 974`,
`2 <= j < 846`, the final green plane has
`gre[k][j] = (ccd[k][j-1] + ccd[k][j+1] + ccd[k-1][j] + ccd[k+1][j]) / 4`, with
truncating division of the exact sum. -/
theorem green_refinement (ccd : Grid) (hccd : ∀ k j, k < 976 → j < 848 → ccd k j < 256)
    (k j : Nat)
    (h : (k % 2 = 0 ∧ j % 2 = 1 ∧ 2 ≤ k ∧ k < 974 ∧ 3 ≤ j ∧ j < 846) ∨
         (k % 2 = 1 ∧ j % 2 = 0 ∧ 3 ≤ k ∧ k < 974 ∧ 2 ≤ j ∧ j < 846)) :
    (demosaic ccd).gre k j =
      (ccd k (j - 1) + ccd k (j + 1) + ccd (k - 1) j + ccd (k + 1) j) / 4 := by
  have hl := hccd k (j - 1) (by omega) (by omega)
  have hr := hccd k (j + 1) (by omega) (by omega)
  have ht := hccd (k - 1) j (by omega) (by omega)
  have hb := hccd (k + 1) j (by omega) (by omega)
  rw [(demosaic_planes ccd).2.1]
  rcases h with h | h
  · have e1 := grePass_frame ccd (grePassEven ccd (redPass ccd (replicate ccd zeroPlanes)))
      3 2 k j (by simp only [Visits, CCDHEI, CCDWID]; omega)
    have e2 := grePass_cell ccd (redPass ccd (replicate ccd zeroPlanes)) 2 3 k j
      (by simp only [Visits, CCDHEI]; omega) (by simp only [Visits, CCDWID]; omega)
      (by decide) (by decide)
    unfold grePassOdd
    rw [e1]
    unfold grePassEven
    rw [e2]
    simp only [uchar]
    omega
  · have e2 := grePass_cell ccd (grePassEven ccd (redPass ccd (replicate ccd zeroPlanes)))
      3 2 k j (by simp only [Visits, CCDHEI]; omega) (by simp only [Visits, CCDWID]; omega)
      (by decide) (by decide)
    unfold grePassOdd
    rw [e2]
    simp only [uchar]
    omega

/-- Witness for C5: the sensor array `ccd[k][j] = (37 k + 91 j) mod 256` at the
B position (11, 20). -/
theorem green_refinement_witness :
    (demosaic (fun k j => (37 * k + 91 * j) % 256)).gre 11 20 =
      ((37 * 11 + 91 * (20 - 1)) % 256 + (37 * 11 + 91 * (20 + 1)) % 256
        + (37 * (11 - 1) + 91 * 20) % 256 + (37 * (11 + 1) + 91 * 20) % 256) / 4 :=
  green_refinement (fun k j => (37 * k + 91 * j) % 256)
    (fun _ _ _ _ => Nat.mod_lt _ (by decide)) 11 20 (Or.inr (by decide))

/-- C6. Blue refinement: for every sensor array of `unsigned char` samples and
every mosaic B position `(k, j)` (`k` odd, `j` even, `3 <= k < 974`,
`2 <= j < 846`), the final blue plane has `blu[k][j+1] = (b + br) / 2`,
`blu[k-1][j] = (b + bt) / 2` and `blu[k-1][j+1] = (b + br + bt + bc) / 4`, with
`b = ccd[k][j]`, `br = ccd[k][j+2]`, `bt = ccd[k-2][j]`, `bc = ccd[k-2][j+2]` and
truncating division of the exact sums. -/
theorem blue_refinement (ccd : Grid) (hccd : ∀ k j, k < 976 → j < 848 → ccd k j < 256)
    (k j : Nat) (hk2 : k % 2 = 1) (hj2 : j % 2 = 0)
    (hk : 3 ≤ k ∧ k < 974) (hj : 2 ≤ j ∧ j < 846) :
    (demosaic ccd).blu k (j + 1) = (ccd k j + ccd k (j + 2)) / 2 ∧
    (demosaic ccd).blu (k - 1) j = (ccd k j + ccd (k - 2) j) / 2 ∧
    (demosaic ccd).blu (k - 1) (j + 1) =
      (ccd k j + ccd k (j + 2) + ccd (k - 2) j + ccd (k - 2) (j + 2)) / 4 := by
  have hb := hccd k j (by omega) (by omega)
  have hbr := hccd k (j + 2) (by omega) (by omega)
  have hbt := hccd (k - 2) j (by omega) (by omega)
  have hbc := hccd (k - 2) (j + 2) (by omega) (by omega)
  obtain ⟨h1, h2, h3⟩ := bluPass_cell ccd
    (grePassOdd ccd (grePassEven ccd (redPass ccd (replicate ccd zeroPlanes)))) k j
    hk2 hj2 hk hj
  rw [(demosaic_planes ccd).2.2, h1, h2, h3]
  simp only [uchar]
  omega

/-- Witness for C6: the sensor array `ccd[k][j] = (37 k + 91 j) mod 256` at the
B position (11, 20). -/
theorem blue_refinement_witness :
    (demosaic (fun k j => (37 * k + 91 * j) % 256)).blu 11 (20 + 1) =
      ((37 * 11 + 91 * 20) % 256 + (37 * 11 + 91 * (20 + 2)) % 256) / 2 ∧
    (demosaic (fun k j => (37 * k + 91 * j) % 256)).blu (11 - 1) 20 =
      ((37 * 11 + 91 * 20) % 256 + (37 * (11 - 2) + 91 * 20) % 256) / 2 ∧
    (demosaic (fun k j => (37 * k + 91 * j) % 256)).blu (11 - 1) (20 + 1) =
      ((37 * 11 + 91 * 20) % 256 + (37 * 11 + 91 * (20 + 2)) % 256
        + (37 * (11 - 2) + 91 * 20) % 256 + (37 * (11 - 2) + 91 * (20 + 2)) % 256) / 4 :=
  blue_refinement (fun k j => (37 * k + 91 * j) % 256)
    (fun _ _ _ _ => Nat.mod_lt _ (by decide)) 11 20 (by decide) (by decide)
    (by decide) (by decide)

/-! ## Streams built block by block -/

theorem blocks_succ {α : Type} (n : Nat) (f : Nat → List α) :
    blocks (n + 1) f = blocks n f ++ f n := by
  simp [blocks, List.range_succ]

theorem blocks_succ_front {α : Type} (n : Nat) (f : Nat → List α) :
    blocks (n + 1) f = f 0 ++ blocks n (fun i => f (i + 1)) := by
  simp [blocks, List.range_succ_eq_map, List.map_map, Function.comp_def]

theorem blocks_length {α : Type} (b : Nat) (f : Nat → List α) :
    ∀ n, (∀ i, i < n → (f i).length = b) → (blocks n f).length = b * n := by
  intro n
  induction n with
  | zero => intro _; simp [blocks]
  | succ n ih =>
    intro h
    rw [blocks_succ, List.length_append, ih (fun i hi => h i (by omega)), h n (by omega),
      Nat.mul_succ]

theorem blocks_get {α : Type} (b : Nat) (f : Nat → List α) (i c : Nat) (hc : c < b) :
    ∀ n, (∀ i, i < n → (f i).length = b) → i < n →
      (blocks n f)[b * i + c]? = (f i)[c]? := by
  intro n
  induction n with
  | zero => intro _ hi; omega
  | succ n ih =>
    intro h hi
    have hlen := blocks_length b f n (fun i hi => h i (by omega))
    rw [blocks_succ]
    by_cases hin : i < n
    · have hle : b * (i + 1) ≤ b * n := Nat.mul_le_mul_left b hin
      rw [Nat.mul_succ] at hle
      rw [List.getElem?_append_left (by omega)]
      exact ih (fun i hi => h i (by omega)) hin
    · have hi2 : i = n := by omega
      subst hi2
      rw [List.getElem?_append_right (by omega), hlen]
      congr 1
      omega

theorem blocks_seg {α : Type} (b : Nat) (f : Nat → List α) (n i : Nat)
    (h : ∀ i, i < n → (f i).length = b) (hi : i < n) :
    ((blocks n f).drop (b * i)).take b = f i := by
  apply List.ext_getElem?
  intro c
  rw [List.getElem?_take]
  by_cases hc : c < b
  · rw [if_pos hc, List.getElem?_drop, blocks_get b f i c hc n h hi]
  · rw [if_neg hc, List.getElem?_eq_none (by rw [h i hi]; omega)]

theorem mem_blocks {α : Type} (f : Nat → List α) (n : Nat) (x : α) :
    x ∈ blocks n f ↔ ∃ i, i < n ∧ x ∈ f i := by
  simp [blocks, List.mem_flatten]

/-- A loop over the 424 column pairs that appends `f j` in iteration `j`. -/
theorem forUp_append_pairs {α : Type} (f : Nat → List α) (acc : List α) :
    forUp (fun j acc => acc ++ f j) CCDWID 2 CCDWID 0 acc =
      acc ++ blocks 424 (fun m => f (2 * m)) := by
  have h := forUp_rule (fun j acc => acc ++ f j) CCDWID 2 (by decide)
    (fun j out => j % 2 = 0 ∧ j ≤ 848 ∧ out = acc ++ blocks (j / 2) (fun m => f (2 * m)))
    (by
      intro j out hlt hI
      obtain ⟨h2, _, hout⟩ := hI
      have hj : j < 848 := by simpa [CCDWID] using hlt
      refine ⟨by omega, by omega, ?_⟩
      have e1 : (j + 2) / 2 = j / 2 + 1 := by omega
      have e2 : 2 * (j / 2) = j := by omega
      beta_reduce
      rw [e1, blocks_succ, hout, e2, List.append_assoc])
    CCDWID 0 acc (by omega) ⟨by decide, by decide, by simp [blocks]⟩
  obtain ⟨e, he, _, hle, hout⟩ := h
  have he2 : e = 848 := by simp only [CCDWID] at he; omega
  subst he2
  exact hout

/-- A downward loop that appends `f k` in iteration `k`. -/
theorem forDown_append {α : Type} (f : Nat → List α) :
    ∀ n (acc : List α), forDown (fun k acc => acc ++ f k) n acc =
      acc ++ blocks n (fun r => f (n - 1 - r)) := by
  intro n
  induction n with
  | zero => intro acc; simp [forDown, blocks]
  | succ n ih =>
    intro acc
    rw [forDown, ih, blocks_succ_front, List.append_assoc]
    congr 2
    · apply congrArg
      funext r
      congr 1
      omega

/-! ## The output loop -/

set_option maxRecDepth 100000 in
theorem gamma_all : gamma.all (fun g => decide (g < 256)) = true := by decide

theorem gammaAt_lt (i : Nat) : gammaAt i < 256 := by
  unfold gammaAt
  rw [List.getD_eq_getElem?_getD]
  by_cases h : i < gamma.length
  · rw [List.getElem?_eq_getElem h]
    have hall := gamma_all
    rw [List.all_eq_true] at hall
    simpa using hall _ (List.getElem_mem h)
  · rw [List.getElem?_eq_none (by omega)]
    decide

theorem fputc_gammaAt (i : Nat) (bmp : List Nat) :
    fputc (gammaAt i) bmp = bmp ++ [gammaAt i] := by
  unfold fputc
  rw [uchar_of_lt _ (gammaAt_lt i)]

theorem emitPair_eq (p : Planes) (k j : Nat) (bmp : List Nat) :
    emitPair p k j bmp = bmp ++ (pairIdx p k j).map gammaAt := by
  simp [emitPair, pairIdx, fputc_gammaAt]

theorem emitRow_eq (p : Planes) (k : Nat) (bmp : List Nat) :
    emitRow p k bmp = bmp ++ rowBytes p k := by
  unfold emitRow rowBytes
  have hb : (fun j bmp => emitPair p k j bmp) =
      (fun j bmp => bmp ++ (pairIdx p k j).map gammaAt) := by
    funext j bmp
    exact emitPair_eq p k j bmp
  rw [hb]
  exact forUp_append_pairs (fun j => (pairIdx p k j).map gammaAt) bmp

theorem writePixels_eq (p : Planes) (bmp : List Nat) :
    writePixels p bmp = bmp ++ blocks 976 (fun r => rowBytes p (975 - r)) := by
  unfold writePixels
  have hb : (fun k bmp => emitRow p k bmp) = (fun k bmp => bmp ++ rowBytes p k) := by
    funext k bmp
    exact emitRow_eq p k bmp
  rw [hb]
  exact forDown_append (fun k => rowBytes p k) 976 bmp

theorem pixelStream_eq (p : Planes) :
    pixelStream p = blocks 976 (fun r => rowBytes p (975 - r)) := by
  unfold pixelStream
  rw [writePixels_eq, List.nil_append]

theorem indexStream_eq (p : Planes) :
    indexStream p = blocks 976 (fun r => blocks 424 (fun m => pairIdx p (975 - r) (2 * m))) := by
  unfold indexStream
  have hb : (fun k acc => forUp (fun j acc => acc ++ pairIdx p k j) CCDWID 2 CCDWID 0 acc) =
      (fun k acc => acc ++ blocks 424 (fun m => pairIdx p k (2 * m))) := by
    funext k acc
    exact forUp_append_pairs (fun j => pairIdx p k j) acc
  rw [hb]
  have h := forDown_append (fun k => blocks 424 (fun m => pairIdx p k (2 * m))) 976 []
  rw [List.nil_append] at h
  exact h

theorem pairIdx_length (p : Planes) (k j : Nat) : (pairIdx p k j).length = 9 := rfl

theorem rowBytes_length (p : Planes) (k : Nat) : (rowBytes p k).length = 3816 :=
  blocks_length 9 _ 424 (fun _ _ => by rw [List.length_map, pairIdx_length])

theorem pixelStream_length (p : Planes) : (pixelStream p).length = 3816 * 976 := by
  rw [pixelStream_eq]
  exact blocks_length 3816 _ 976 (fun _ _ => rowBytes_length p _)

/-- Row segment `r` of the pixel stream is what the inner loop writes for plane
row `975 - r`. -/
theorem pixelStream_row (p : Planes) (r : Nat) (hr : r < 976) :
    ((pixelStream p).drop (3816 * r)).take 3816 = rowBytes p (975 - r) := by
  rw [pixelStream_eq]
  exact blocks_seg 3816 _ 976 r (fun _ _ => rowBytes_length p _) hr

/-- Byte `c` of the nine bytes written for the column pair `(2 m, 2 m + 1)` of
plane row `975 - r`. -/
theorem pixelStream_get (p : Planes) (r m c : Nat) (hr : r < 976) (hm : m < 424)
    (hc : c < 9) :
    (pixelStream p)[3816 * r + (9 * m + c)]? =
      ((pairIdx p (975 - r) (2 * m)).map gammaAt)[c]? := by
  have hlt : 9 * m + c < 3816 := by omega
  rw [pixelStream_eq,
    blocks_get 3816 _ r (9 * m + c) hlt 976 (fun _ _ => rowBytes_length p _) hr]
  unfold rowBytes
  exact blocks_get 9 _ m c hc 424 (fun _ _ => by rw [List.length_map, pairIdx_length]) hm

/-- The nine bytes written for the column pair `(j, j + 1)` of plane row `k`,
at their place in the pixel stream. -/
theorem pixelStream_pair (p : Planes) (k j : Nat) (hk : k < 976) (hj : j < 848)
    (hj2 : j % 2 = 0) :
    ((pixelStream p).drop (3816 * (975 - k) + 9 * (j / 2))).take 9 =
      (pairIdx p k j).map gammaAt := by
  apply List.ext_getElem?
  intro c
  rw [List.getElem?_take]
  by_cases hc : c < 9
  · rw [if_pos hc, List.getElem?_drop, Nat.add_assoc,
      pixelStream_get p (975 - k) (j / 2) c (by omega) (by omega) hc]
    have e1 : 975 - (975 - k) = k := by omega
    have e2 : 2 * (j / 2) = j := by omega
    rw [e1, e2]
  · rw [if_neg hc, List.getElem?_eq_none (by rw [List.length_map, pairIdx_length]; omega)]

/-- C7 as stated fails: on planes with 0 in even and 255 in odd columns the
first pixel written for row 975 and the column pair (0, 1) is `gamma[0] = 0`,
the left sample, not `gamma[255] = 255`, the right sample. -/
theorem stretch_right_sample_first_fails :
    ¬ (∀ (p : Planes) (k j : Nat), k < 976 → j < 848 → j % 2 = 0 →
      ((pixelStream p).drop (3816 * (975 - k) + 9 * (j / 2))).take 9 =
        [ gammaAt (p.blu k (j + 1)), gammaAt (p.gre k (j + 1)), gammaAt (p.red k (j + 1)),
          gammaAt ((p.blu k j + p.blu k (j + 1)) / 2),
          gammaAt ((p.gre k j + p.gre k (j + 1)) / 2),
          gammaAt ((p.red k j + p.red k (j + 1)) / 2),
          gammaAt (p.blu k j), gammaAt (p.gre k j), gammaAt (p.red k j) ]) := by
  intro h
  have h1 := h stripes 975 0 (by decide) (by decide) (by decide)
  rw [pixelStream_pair stripes 975 0 (by decide) (by decide) (by decide)] at h1
  have h2 : gammaAt 0 = gammaAt 255 := by
    have h3 := congrArg (fun l => l.headD 0) h1
    simpa [pairIdx, stripes] using h3
  revert h2
  decide

/-- C7, amended. Stretch pixel order: for every row `k < 976` and every even
source column `j < 848`, the nine bytes written for the pair `(j, j + 1)` start
at offset `3816 * (975 - k) + 9 * (j / 2)` of the pixel stream and are three
pixels in this order: first the gamma image of `plane[k][j]` (the left sample),
second the gamma image of the truncated mean of `plane[k][j]` and
`plane[k][j+1]`, third the gamma image of `plane[k][j+1]` (the right sample);
each pixel carries the blue, the green and the red plane in this order. -/
theorem stretch_pixel_order (p : Planes) (k j : Nat) (hk : k < 976) (hj : j < 848)
    (hj2 : j % 2 = 0) :
    ((pixelStream p).drop (3816 * (975 - k) + 9 * (j / 2))).take 9 =
      [ gammaAt (p.blu k j), gammaAt (p.gre k j), gammaAt (p.red k j),
        gammaAt ((p.blu k j + p.blu k (j + 1)) / 2),
        gammaAt ((p.gre k j + p.gre k (j + 1)) / 2),
        gammaAt ((p.red k j + p.red k (j + 1)) / 2),
        gammaAt (p.blu k (j + 1)), gammaAt (p.gre k (j + 1)), gammaAt (p.red k (j + 1)) ] := by
  rw [pixelStream_pair p k j hk hj hj2]
  rfl

/-- Witness for C7: the striped planes, row 975, column pair (0, 1). -/
theorem stretch_pixel_order_witness :
    ((pixelStream stripes).drop (3816 * (975 - 975) + 9 * (0 / 2))).take 9 =
      [ gammaAt (stripes.blu 975 0), gammaAt (stripes.gre 975 0), gammaAt (stripes.red 975 0),
        gammaAt ((stripes.blu 975 0 + stripes.blu 975 (0 + 1)) / 2),
        gammaAt ((stripes.gre 975 0 + stripes.gre 975 (0 + 1)) / 2),
        gammaAt ((stripes.red 975 0 + stripes.red 975 (0 + 1)) / 2),
        gammaAt (stripes.blu 975 (0 + 1)), gammaAt (stripes.gre 975 (0 + 1)),
        gammaAt (stripes.red 975 (0 + 1)) ] :=
  stretch_pixel_order stripes 975 0 (by decide) (by decide) (by decide)

theorem blocks_congr {α : Type} (n : Nat) (f g : Nat → List α)
    (h : ∀ i, i < n → f i = g i) : blocks n f = blocks n g := by
  unfold blocks
  congr 1
  apply List.map_congr_left
  intro i hi
  exact h i (List.mem_range.mp hi)

/-- The bytes written for a plane row depend on that row of the planes only. -/
theorem rowBytes_congr (p q : Planes) (k : Nat)
    (h : ∀ j, j < 848 → q.red k j = p.red k j ∧ q.gre k j = p.gre k j ∧ q.blu k j = p.blu k j) :
    rowBytes q k = rowBytes p k := by
  unfold rowBytes
  apply blocks_congr
  intro m hm
  obtain ⟨a1, a2, a3⟩ := h (2 * m) (by omega)
  obtain ⟨b1, b2, b3⟩ := h (2 * m + 1) (by omega)
  simp only [pairIdx, a1, a2, a3, b1, b2, b3]

/-- Three consecutive bytes inside the nine bytes of a column pair. -/
theorem pixelStream_take3 (p : Planes) (r m t : Nat) (hr : r < 976) (hm : m < 424)
    (ht : t < 3) :
    ((pixelStream p).drop (3816 * r + (9 * m + 3 * t))).take 3 =
      (((pairIdx p (975 - r) (2 * m)).map gammaAt).drop (3 * t)).take 3 := by
  apply List.ext_getElem?
  intro c
  rw [List.getElem?_take, List.getElem?_take]
  by_cases hc : c < 3
  · rw [if_pos hc, if_pos hc, List.getElem?_drop, List.getElem?_drop]
    have e : 3816 * r + (9 * m + 3 * t) + c = 3816 * r + (9 * m + (3 * t + c)) := by omega
    rw [e, pixelStream_get p r m (3 * t + c) hr hm (by omega)]
  · rw [if_neg hc, if_neg hc]

/-- C8. Row and channel order of the output: the pixel stream has 976 * 3816
bytes; for every `r < 976` the segment of 3816 bytes at offset `3816 * r` is the
same for any two contents of the planes that agree on row `975 - r`; and for
every destination pixel `x < 1272` of that segment the three bytes are, in
order, the gamma images of a blue, a green and a red plane value of row
`975 - r`, all three taken at the same source column(s). -/
theorem row_and_channel_order (p : Planes) :
    (pixelStream p).length = 976 * 3816 ∧
    ∀ r, r < 976 →
      (∀ q : Planes,
        (∀ j, j < 848 → q.red (975 - r) j = p.red (975 - r) j ∧
          q.gre (975 - r) j = p.gre (975 - r) j ∧ q.blu (975 - r) j = p.blu (975 - r) j) →
        ((pixelStream q).drop (3816 * r)).take 3816 =
          ((pixelStream p).drop (3816 * r)).take 3816) ∧
      (∀ x, x < 1272 →
        ((pixelStream p).drop (3816 * r + 3 * x)).take 3 =
          [ gammaAt (pixelSource x (p.blu (975 - r))),
            gammaAt (pixelSource x (p.gre (975 - r))),
            gammaAt (pixelSource x (p.red (975 - r))) ]) := by
  refine ⟨by rw [pixelStream_length], ?_⟩
  intro r hr
  constructor
  · intro q hq
    rw [pixelStream_row q r hr, pixelStream_row p r hr]
    exact rowBytes_congr p q (975 - r) hq
  · intro x hx
    have e : 3 * x = 9 * (x / 3) + 3 * (x % 3) := by omega
    rw [e, pixelStream_take3 p r (x / 3) (x % 3) hr (by omega) (Nat.mod_lt _ (by decide))]
    have ht : x % 3 = 0 ∨ x % 3 = 1 ∨ x % 3 = 2 := by omega
    rcases ht with ht | ht | ht <;> simp [pairIdx, pixelSource, ht]

/-- Witness for C8: the striped planes, the first segment written (plane row
975) and its destination pixel 4. -/
theorem row_and_channel_order_witness :
    (∀ q : Planes,
      (∀ j, j < 848 → q.red (975 - 0) j = stripes.red (975 - 0) j ∧
        q.gre (975 - 0) j = stripes.gre (975 - 0) j ∧
        q.blu (975 - 0) j = stripes.blu (975 - 0) j) →
      ((pixelStream q).drop (3816 * 0)).take 3816 =
        ((pixelStream stripes).drop (3816 * 0)).take 3816) ∧
    ((pixelStream stripes).drop (3816 * 0 + 3 * 4)).take 3 =
      [ gammaAt (pixelSource 4 (stripes.blu (975 - 0))),
        gammaAt (pixelSource 4 (stripes.gre (975 - 0))),
        gammaAt (pixelSource 4 (stripes.red (975 - 0))) ] :=
  ⟨((row_and_channel_order stripes).2 0 (by decide)).1,
   ((row_and_channel_order stripes).2 0 (by decide)).2 4 (by decide)⟩

/-- C9. Fixed output geometry: whatever the planes hold, the output loop writes
exactly `3 * 1272 * 976 = 3724416` bytes, 3816 bytes for every plane row (424
column pairs of 9 bytes), and 3816 is a multiple of 4. -/
theorem fixed_output_geometry (p : Planes) :
    (pixelStream p).length = 3 * 1272 * 976 ∧
    (∀ bmp, (writePixels p bmp).length = bmp.length + 3724416) ∧
    (∀ k bmp, (emitRow p k bmp).length = bmp.length + 3816) ∧
    (∀ k j bmp, (emitPair p k j bmp).length = bmp.length + 9) ∧
    3 * 1272 * 976 = 3724416 ∧ 424 * 9 = 3816 ∧ 3816 % 4 = 0 := by
  refine ⟨by rw [pixelStream_length], ?_, ?_, ?_, by decide, by decide, by decide⟩
  · intro bmp
    have h := pixelStream_length p
    rw [pixelStream_eq] at h
    rw [writePixels_eq, List.length_append, h]
  · intro k bmp
    rw [emitRow_eq, List.length_append, rowBytes_length]
  · intro k j bmp
    rw [emitPair_eq, List.length_append, List.length_map, pairIdx_length]

/-! ## Constant images -/

theorem redBody_const (ccd : Grid) (V : Nat) (hV : V ≤ 255)
    (hccd : ∀ k j, k < 976 → j < 848 → ccd k j = V) (k1 j1 : Nat)
    (hk1 : 2 ≤ k1 ∧ k1 < 974) (hj1 : 3 ≤ j1 ∧ j1 < 846) (s : Planes)
    (hq : ConstPlanes V s) : ConstPlanes V (redBody ccd k1 j1 s) := by
  intro k j hk hj
  obtain ⟨q1, q2, q3⟩ := hq k j hk hj
  have c1 := hccd k1 j1 (by omega) (by omega)
  have c2 := hccd k1 (j1 - 2) (by omega) (by omega)
  have c3 := hccd (k1 + 2) j1 (by omega) (by omega)
  have c4 := hccd (k1 + 2) (j1 - 2) (by omega) (by omega)
  refine ⟨?_, q2, q3⟩
  simp only [redBody, setRed, setCell, c1, c2, c3, c4, uchar]
  split_ifs <;> omega

theorem greBody_const (ccd : Grid) (V : Nat) (hV : V ≤ 255)
    (hccd : ∀ k j, k < 976 → j < 848 → ccd k j = V) (k1 j1 : Nat)
    (hk1 : 2 ≤ k1 ∧ k1 < 974) (hj1 : 2 ≤ j1 ∧ j1 < 846) (s : Planes)
    (hq : ConstPlanes V s) : ConstPlanes V (greBody ccd k1 j1 s) := by
  intro k j hk hj
  obtain ⟨q1, q2, q3⟩ := hq k j hk hj
  have c1 := hccd k1 (j1 - 1) (by omega) (by omega)
  have c2 := hccd k1 (j1 + 1) (by omega) (by omega)
  have c3 := hccd (k1 - 1) j1 (by omega) (by omega)
  have c4 := hccd (k1 + 1) j1 (by omega) (by omega)
  refine ⟨q1, ?_, q3⟩
  simp only [greBody, setGre, setCell, c1, c2, c3, c4, uchar]
  split_ifs <;> omega

theorem bluBody_const (ccd : Grid) (V : Nat) (hV : V ≤ 255)
    (hccd : ∀ k j, k < 976 → j < 848 → ccd k j = V) (k1 j1 : Nat)
    (hk1 : 3 ≤ k1 ∧ k1 < 974) (hj1 : 2 ≤ j1 ∧ j1 < 846) (s : Planes)
    (hq : ConstPlanes V s) : ConstPlanes V (bluBody ccd k1 j1 s) := by
  intro k j hk hj
  obtain ⟨q1, q2, q3⟩ := hq k j hk hj
  have c1 := hccd k1 j1 (by omega) (by omega)
  have c2 := hccd k1 (j1 + 2) (by omega) (by omega)
  have c3 := hccd (k1 - 2) j1 (by omega) (by omega)
  have c4 := hccd (k1 - 2) (j1 + 2) (by omega) (by omega)
  refine ⟨q1, q2, ?_⟩
  simp only [bluBody, setBlu, setCell, c1, c2, c3, c4, uchar]
  split_ifs <;> omega

/-- On a constant sensor array both demosaic phases give constant planes. -/
theorem demosaic_const (ccd : Grid) (V : Nat) (hV : V ≤ 255)
    (hccd : ∀ k j, k < 976 → j < 848 → ccd k j = V) : ConstPlanes V (demosaic ccd) := by
  have h0 : ConstPlanes V (replicate ccd zeroPlanes) := by
    intro k j hk hj
    obtain ⟨h1, h2, h3⟩ := replicate_cell ccd zeroPlanes k j hk hj
    rw [h1, h2, h3, hccd _ _ (by omega) (by omega), hccd _ _ (by omega) (by omega),
      hccd _ _ (by omega) (by omega), hccd _ _ (by omega) (by omega), ite_self]
    exact ⟨uchar_of_lt V (by omega), uchar_of_lt V (by omega), uchar_of_lt V (by omega)⟩
  have h1 : ConstPlanes V (redPass ccd (replicate ccd zeroPlanes)) := by
    unfold redPass
    apply nest_pres (fun k j s => redBody ccd k j s) _ _ _ _ _ _ _ _ (ConstPlanes V) _ _ h0
    intro k1 j1 s hk1 hj1 hq
    simp only [Visits, CCDHEI, CCDWID] at hk1 hj1
    exact redBody_const ccd V hV hccd k1 j1 (by omega) (by omega) s hq
  have h2 : ConstPlanes V (grePassEven ccd (redPass ccd (replicate ccd zeroPlanes))) := by
    unfold grePassEven
    apply nest_pres (fun k j s => greBody ccd k j s) _ _ _ _ _ _ _ _ (ConstPlanes V) _ _ h1
    intro k1 j1 s hk1 hj1 hq
    simp only [Visits, CCDHEI, CCDWID] at hk1 hj1
    exact greBody_const ccd V hV hccd k1 j1 (by omega) (by omega) s hq
  have h3 : ConstPlanes V
      (grePassOdd ccd (grePassEven ccd (redPass ccd (replicate ccd zeroPlanes)))) := by
    unfold grePassOdd
    apply nest_pres (fun k j s => greBody ccd k j s) _ _ _ _ _ _ _ _ (ConstPlanes V) _ _ h2
    intro k1 j1 s hk1 hj1 hq
    simp only [Visits, CCDHEI, CCDWID] at hk1 hj1
    exact greBody_const ccd V hV hccd k1 j1 (by omega) (by omega) s hq
  unfold demosaic interpolate
  unfold bluPass
  apply nest_pres (fun k j s => bluBody ccd k j s) _ _ _ _ _ _ _ _ (ConstPlanes V) _ _ h3
  intro k1 j1 s hk1 hj1 hq
  simp only [Visits, CCDHEI, CCDWID] at hk1 hj1
  exact bluBody_const ccd V hV hccd k1 j1 (by omega) (by omega) s hq

/-- On constant planes every gamma table index of the output loop is the constant. -/
theorem indexStream_const (V : Nat) (p : Planes) (hp : ConstPlanes V p) :
    ∀ i ∈ indexStream p, i = V := by
  intro i hi
  rw [indexStream_eq, mem_blocks] at hi
  obtain ⟨r, hr, hi⟩ := hi
  rw [mem_blocks] at hi
  obtain ⟨m, hm, hi⟩ := hi
  obtain ⟨a1, a2, a3⟩ := hp (975 - r) (2 * m) (by omega) (by omega)
  obtain ⟨b1, b2, b3⟩ := hp (975 - r) (2 * m + 1) (by omega) (by omega)
  simp only [pairIdx, a1, a2, a3, b1, b2, b3, List.mem_cons, List.mem_singleton,
    List.not_mem_nil, or_false] at hi
  omega

theorem map_blocks {α β : Type} (g : α → β) (n : Nat) (f : Nat → List α) :
    (blocks n f).map g = blocks n (fun i => (f i).map g) := by
  simp [blocks, List.map_flatten, List.map_map, Function.comp_def]

/-- The pixel stream is the gamma image of the index stream. -/
theorem pixelStream_eq_map (p : Planes) : pixelStream p = (indexStream p).map gammaAt := by
  rw [pixelStream_eq, indexStream_eq, map_blocks]
  apply blocks_congr
  intro r _
  rw [map_blocks]
  unfold rowBytes
  exact blocks_congr _ _ _ (fun _ _ => rfl)

/-- C10. Constants pass through the pipeline unchanged.  The bytes written are
the gamma images of the gamma table indices, in order.  For every `V` in
`[0, 255]`: if every cell of the three planes is `V`, every index handed to the
gamma table is `V`; if every cell of the sensor array is `V`, the three planes
are constant `V` after both demosaic phases and every byte of the pixel stream
is `gamma[V]`.  An all-zero sensor array gives an all-zero pixel stream. -/
theorem constants_pass_through (V : Nat) (hV : V ≤ 255) :
    (∀ p : Planes, pixelStream p = (indexStream p).map gammaAt) ∧
    (∀ p : Planes,
      (∀ k j, k < 976 → j < 848 → p.red k j = V ∧ p.gre k j = V ∧ p.blu k j = V) →
      ∀ i ∈ indexStream p, i = V) ∧
    (∀ ccd : Grid, (∀ k j, k < 976 → j < 848 → ccd k j = V) →
      (∀ k j, k < 976 → j < 848 →
        (demosaic ccd).red k j = V ∧ (demosaic ccd).gre k j = V ∧
        (demosaic ccd).blu k j = V) ∧
      (pixelStream (demosaic ccd)).length = 3724416 ∧
      ∀ b ∈ pixelStream (demosaic ccd), b = gammaAt V) ∧
    (∀ ccd : Grid, (∀ k j, k < 976 → j < 848 → ccd k j = 0) →
      ∀ b ∈ pixelStream (demosaic ccd), b = 0) := by
  have key : ∀ (W : Nat), W ≤ 255 → ∀ ccd : Grid,
      (∀ k j, k < 976 → j < 848 → ccd k j = W) →
      ∀ b ∈ pixelStream (demosaic ccd), b = gammaAt W := by
    intro W hW ccd hccd b hb
    rw [pixelStream_eq_map, List.mem_map] at hb
    obtain ⟨i, hi, rfl⟩ := hb
    rw [indexStream_const W _ (demosaic_const ccd W hW hccd) i hi]
  refine ⟨pixelStream_eq_map, fun p hp => indexStream_const V p hp, ?_, ?_⟩
  · intro ccd hccd
    exact ⟨demosaic_const ccd V hV hccd, by rw [pixelStream_length], key V hV ccd hccd⟩
  · intro ccd hccd b hb
    rw [key 0 (by decide) ccd hccd b hb]
    decide

/-- Witness for C10: the constant 200. -/
theorem constants_pass_through_witness :
    (∀ i ∈ indexStream ⟨fun _ _ => 200, fun _ _ => 200, fun _ _ => 200⟩, i = 200) ∧
    (∀ b ∈ pixelStream (demosaic (fun _ _ => 200)), b = gammaAt 200) ∧
    (∀ b ∈ pixelStream (demosaic (fun _ _ => 0)), b = 0) :=
  ⟨(constants_pass_through 200 (by decide)).2.1 ⟨fun _ _ => 200, fun _ _ => 200, fun _ _ => 200⟩
      (fun _ _ _ _ => ⟨rfl, rfl, rfl⟩),
   ((constants_pass_through 200 (by decide)).2.2.1 (fun _ _ => 200) (fun _ _ _ _ => rfl)).2.2,
   (constants_pass_through 200 (by decide)).2.2.2 (fun _ _ => 0) (fun _ _ _ _ => rfl)⟩

/-! ## The tables -/

set_option maxRecDepth 100000 in
theorem gamma_steps :
    (List.range 255).all (fun i => decide (gammaAt i ≤ gammaAt (i + 1))) = true := by decide

set_option maxRecDepth 100000 in
theorem gamma_length : gamma.length = 256 := by decide

/-- C12. Gamma table shape: the table `gamma` has exactly 256 entries, each an
`unsigned char`, `gamma[0] = 0`, `gamma[255] = 255`, and
`gamma[i] <= gamma[i+1]` for every `i` in `[0, 255)`. -/
theorem gamma_table_shape :
    gamma.length = 256 ∧ gammaAt 0 = 0 ∧ gammaAt 255 = 255 ∧
    (∀ i, i < 256 → gammaAt i ≤ 255) ∧
    (∀ i, i < 255 → gammaAt i ≤ gammaAt (i + 1)) := by
  refine ⟨gamma_length, by decide, by decide, ?_, ?_⟩
  · intro i _
    have := gammaAt_lt i
    omega
  · intro i hi
    have h := gamma_steps
    rw [List.all_eq_true] at h
    simpa using h i (List.mem_range.mpr hi)

/-- Witness for C12: the entries 86 and 87, both 135. -/
theorem gamma_table_shape_witness : gammaAt 86 ≤ 255 ∧ gammaAt 86 ≤ gammaAt (86 + 1) :=
  ⟨gamma_table_shape.2.2.2.1 86 (by decide), gamma_table_shape.2.2.2.2 86 (by decide)⟩

/-- C13. Row offset table shape: the table `kdcoff` has exactly 976 entries and
every entry `o` has `0 <= o < 848`; so for every `k < 976` and `j < 848` the
`int` expression `j - kdcoff[k] + 848` is positive and the destination column
`(j - kdcoff[k] + 848) % 848` lies in `[0, 848)`. -/
theorem row_offset_table_shape :
    kdcoff.length = 976 ∧
    ∀ k, k < 976 →
      (0 ≤ kdcoffAt k ∧ kdcoffAt k < 848) ∧
      ∀ j : Nat, j < 848 →
        0 < (j : Int) - kdcoffAt k + 848 ∧
        0 ≤ destCol j (kdcoffAt k) ∧ destCol j (kdcoffAt k) < 848 := by
  refine ⟨kdcoff_length, ?_⟩
  intro k hk
  obtain ⟨h0, h1, _⟩ := kdcoffAt_range k hk
  refine ⟨⟨h0, h1⟩, ?_⟩
  intro j hj
  refine ⟨by omega, ?_⟩
  unfold destCol CCDWID
  rw [Int.tmod_eq_emod (by omega) (by omega)]
  omega

/-- Witness for C13: row 34, whose offset 846 is the largest of the table, and
column 0. -/
theorem row_offset_table_shape_witness :
    (0 ≤ kdcoffAt 34 ∧ kdcoffAt 34 < 848) ∧
    0 < ((0 : Nat) : Int) - kdcoffAt 34 + 848 ∧
    0 ≤ destCol 0 (kdcoffAt 34) ∧ destCol 0 (kdcoffAt 34) < 848 :=
  ⟨(row_offset_table_shape.2 34 (by decide)).1,
   (row_offset_table_shape.2 34 (by decide)).2 0 (by decide)⟩

/-- C19. Descrambling preserves the Bayer column phase: every entry of `kdcoff`
is even, so for every row `k < 976` and scrambled column `j < 848` the
destination column `(j - kdcoff[k] + 848) % 848` has the parity of `j`. -/
theorem descramble_keeps_column_parity (k : Nat) (hk : k < 976) :
    kdcoffAt k % 2 = 0 ∧
    ∀ j : Nat, j < 848 → destCol j (kdcoffAt k) % 2 = (j : Int) % 2 := by
  obtain ⟨h0, h1, h2⟩ := kdcoffAt_range k hk
  refine ⟨h2, ?_⟩
  intro j hj
  unfold destCol CCDWID
  rw [Int.tmod_eq_emod (by omega) (by omega)]
  omega

/-- Witness for C19: row 1 (offset 828) and the odd column 5. -/
theorem descramble_keeps_column_parity_witness :
    kdcoffAt 1 % 2 = 0 ∧ destCol 5 (kdcoffAt 1) % 2 = ((5 : Nat) : Int) % 2 :=
  ⟨(descramble_keeps_column_parity 1 (by decide)).1,
   (descramble_keeps_column_parity 1 (by decide)).2 5 (by decide)⟩

/-- C15. Bitmap header fields: `bmphead` has exactly 54 bytes, begins with
'B', 'M', and as little-endian fields holds pixel-data offset 54 (bytes 10-13),
info-header size 40 (bytes 14-17), width 1272 (bytes 18-21), height 976 (bytes
22-25), 1 plane (bytes 26-27), 24 bits per pixel (bytes 28-29) and compression
0 (bytes 30-33). -/
theorem bitmap_header_fields :
    bmphead.length = 54 ∧ bmphead.take 2 = ['B'.toNat, 'M'.toNat] ∧
    le32 bmphead 10 = 54 ∧ le32 bmphead 14 = 40 ∧
    le32 bmphead 18 = 1272 ∧ le32 bmphead 22 = 976 ∧
    le16 bmphead 26 = 1 ∧ le16 bmphead 28 = 24 ∧ le32 bmphead 30 = 0 := by
  decide

/-! ## Header validation -/

theorem ident_eq : ident =
    [75, 111, 100, 97, 107, 32, 68, 67, 49, 50, 48, 32, 90, 79, 79, 77, 32,
     68, 105, 103, 105, 116, 97, 108, 32, 67, 97, 109, 101, 114, 97] := by decide

theorem ident_nonzero : ∀ c ∈ ident, c ≠ 0 := by
  rw [ident_eq]; decide

/-- `strcmp` against a string without inner NUL is zero exactly when the other
side, read up to its first NUL, is that string. -/
theorem strcmp_eq_zero_iff (lit : List Nat) (hlit : ∀ c ∈ lit, c ≠ 0) :
    ∀ s : List Nat, strcmp s lit = 0 ↔ s.takeWhile (fun c => decide (c ≠ 0)) = lit := by
  induction lit with
  | nil =>
    intro s
    cases s with
    | nil => simp [strcmp]
    | cons a as =>
      by_cases ha : a = 0
      · simp [strcmp, List.takeWhile_cons, ha]
      · simp [strcmp, List.takeWhile_cons, ha]
  | cons b bs ih =>
    intro s
    have hb : b ≠ 0 := hlit b (List.mem_cons_self _ _)
    have ih2 := ih (fun c hc => hlit c (List.mem_cons_of_mem _ hc))
    cases s with
    | nil =>
      simp [strcmp, hb]
    | cons a as =>
      by_cases hab : a = b
      · subst hab
        simp [strcmp, List.takeWhile_cons, hb, ih2 as]
      · have hne : (a : Int) - (b : Int) ≠ 0 := by omega
        by_cases ha : a = 0
        · simp [strcmp, List.takeWhile_cons, hab, ha, hne]
          omega
        · simp [strcmp, List.takeWhile_cons, hab, ha, hne]

theorem strcmp_ident (hdr : List Nat) :
    strcmp (hdr.drop 470) ident = 0 ↔ cString hdr 470 = ident :=
  strcmp_eq_zero_iff ident ident_nonzero (hdr.drop 470)

theorem fread_length (n : Nat) (f : List Nat) : (fread n f).1.length = n := by
  simp only [fread, List.length_append, List.length_take, List.length_replicate]
  omega

/-- An accepted file: `main` writes the header table and the pixel data. -/
theorem main_accepts (file : List Nat) (h : ValidHeader (fread CCDOFF file).1 1) :
    main 2 (some file) true =
      { diag := [],
        bmp := some (bmphead ++ pixelStream (demosaic (sensorGrid (fread CCDOFF file).2))) } := by
  obtain ⟨h1, h2⟩ := h
  have e1 : strcmp ((fread CCDOFF file).1.drop 470) ident = 0 := (strcmp_ident _).mpr h1
  simp only [main, e1, h2, fwrite, List.nil_append, writePixels_eq, pixelStream_eq]
  simp

/-- A rejected file: `main` prints one of the two format diagnostics and never
opens the .bmp file. -/
theorem main_rejects (file : List Nat) (canCreate : Bool)
    (h : ¬ ValidHeader (fread CCDOFF file).1 1) :
    (main 2 (some file) canCreate).bmp = none ∧
    ((main 2 (some file) canCreate).diag = [Diag.notDC120] ∨
     (main 2 (some file) canCreate).diag = [Diag.notUncompressed]) := by
  by_cases h1 : strcmp ((fread CCDOFF file).1.drop 470) ident = 0
  · have h2 : ¬ (fread CCDOFF file).1.getD 707 0 = 1 :=
      fun h2 => h ⟨(strcmp_ident _).mp h1, h2⟩
    rw [List.getD_eq_getElem?_getD] at h2
    simp [main, h1, h2]
  · simp [main, h1]

theorem ident_length : ident.length = 31 := by rw [ident_eq]; rfl

/-- Shape of a header buffer built as the good headers are: identifier at
offset 470, a NUL behind it, `m` at offset 707. -/
theorem header_shape (m : Nat) :
    (List.replicate 470 0 ++ (ident ++ (List.replicate 206 0 ++
      (m :: List.replicate 14972 0)))).length = 15680 ∧
    ValidHeader (List.replicate 470 0 ++ (ident ++ (List.replicate 206 0 ++
      (m :: List.replicate 14972 0)))) m := by
  refine ⟨?_, ?_, ?_⟩
  · simp only [List.length_append, List.length_replicate, List.length_cons, ident_length]
  · unfold cString
    rw [List.drop_left' (List.length_replicate _ _),
      List.takeWhile_append_of_pos (fun a ha => decide_eq_true (ident_nonzero a ha))]
    have hz : ∀ (n : Nat) (l : List Nat),
        (List.replicate (n + 1) 0 ++ l).takeWhile (fun c => decide (c ≠ 0)) = [] := by
      intro n l
      simp [List.replicate_succ, List.takeWhile_cons]
    rw [hz 205, List.append_nil]
  · have h1 : (List.replicate 470 (0 : Nat)).length ≤ 707 := by
      rw [List.length_replicate]; omega
    have h2 : ident.length ≤ 707 - (List.replicate 470 (0 : Nat)).length := by
      rw [List.length_replicate, ident_length]; omega
    have h3 : (List.replicate 206 (0 : Nat)).length ≤
        707 - (List.replicate 470 (0 : Nat)).length - ident.length := by
      rw [List.length_replicate, List.length_replicate, ident_length]
    have h4 : 707 - (List.replicate 470 (0 : Nat)).length - ident.length
        - (List.replicate 206 (0 : Nat)).length = 0 := by
      rw [List.length_replicate, List.length_replicate, ident_length]
    rw [List.getD_eq_getElem?_getD, List.getElem?_append_right h1,
      List.getElem?_append_right h2, List.getElem?_append_right h3, h4,
      List.getElem?_cons_zero, Option.getD_some]

theorem goodHeader_length : goodHeader.length = 15680 := (header_shape 1).1

theorem goodHeader_valid : ValidHeader goodHeader 1 := (header_shape 1).2

theorem fread_goodHeader (payload : List Nat) :
    fread CCDOFF (goodHeader ++ payload) = (goodHeader, payload) := by
  have hl := goodHeader_length
  simp only [fread, CCDOFF]
  rw [List.take_left' hl, List.drop_left' hl, List.length_append, hl]
  have e : 15680 - (15680 + payload.length) = 0 := by omega
  rw [e, List.replicate_zero, List.append_nil]

/-- The empty file is rejected: its header buffer is all zero. -/
theorem fread_nil_invalid (m : Nat) (hm : m ≠ 0) : ¬ ValidHeader (fread CCDOFF []).1 m := by
  intro h
  have h1 := h.2
  simp only [fread, CCDOFF, List.take_nil, List.nil_append, List.length_nil, Nat.sub_zero,
    List.getD_eq_getElem?_getD, List.getElem?_replicate] at h1
  rw [if_pos (by omega)] at h1
  exact hm h1.symm

/-- C14. Header validation of `kdc2bmp`: the header buffer has 15680 bytes; the
conversion proceeds (the .bmp file is written, with the header table and the
pixel data) if and only if the NUL-terminated string at header offset 470 is
"Kodak DC120 ZOOM Digital Camera" and header byte 707 is 1; for every header
failing either test the tool prints a format diagnostic and the .bmp file is
never opened, whether or not it could be created. -/
theorem header_validation (file : List Nat) :
    (fread CCDOFF file).1.length = 15680 ∧
    ((main 2 (some file) true).bmp ≠ none ↔
      (cString (fread CCDOFF file).1 470 = ident ∧ (fread CCDOFF file).1.getD 707 0 = 1)) ∧
    ((cString (fread CCDOFF file).1 470 = ident ∧ (fread CCDOFF file).1.getD 707 0 = 1) →
      main 2 (some file) true =
        { diag := [],
          bmp := some
            (bmphead ++ pixelStream (demosaic (sensorGrid (fread CCDOFF file).2))) }) ∧
    (¬ (cString (fread CCDOFF file).1 470 = ident ∧ (fread CCDOFF file).1.getD 707 0 = 1) →
      ∀ canCreate : Bool,
        (main 2 (some file) canCreate).bmp = none ∧
        ((main 2 (some file) canCreate).diag = [Diag.notDC120] ∨
         (main 2 (some file) canCreate).diag = [Diag.notUncompressed])) := by
  refine ⟨fread_length _ _, ?_, fun h => main_accepts file h,
    fun h canCreate => main_rejects file canCreate h⟩
  constructor
  · intro hne
    by_contra hv
    exact hne (main_rejects file true hv).1
  · intro hv
    rw [main_accepts file hv]
    simp

/-- Witness for C14: a file that is only the good header is converted, the
empty file is rejected. -/
theorem header_validation_witness :
    main 2 (some (goodHeader ++ [])) true =
      { diag := [],
        bmp := some (bmphead ++
          pixelStream (demosaic (sensorGrid (fread CCDOFF (goodHeader ++ [])).2))) } ∧
    ∀ canCreate : Bool,
      (main 2 (some []) canCreate).bmp = none ∧
      ((main 2 (some []) canCreate).diag = [Diag.notDC120] ∨
       (main 2 (some []) canCreate).diag = [Diag.notUncompressed]) :=
  ⟨(header_validation (goodHeader ++ [])).2.2.1
      (by rw [fread_goodHeader]; exact goodHeader_valid),
   (header_validation []).2.2.2 (fread_nil_invalid 1 (by decide))⟩

/-! ## Short input -/

/-- Every cell of the sensor array `main` builds holds the byte the reading
loop read for it. -/
theorem sensorGrid_cell (payload : List Nat) (k d : Nat) (hk : k < 976) (hd : d < 848) :
    sensorGrid payload k d =
      byteRead payload (848 * k + (d + (kdcoffAt k).toNat) % 848) := by
  unfold sensorGrid
  have h := (readCcd_spec { ccd := fun _ _ => 0, kdc := payload }).2 k d
  rw [h, if_pos ⟨hk, hd⟩]

theorem bmphead_length : bmphead.length = 54 := by decide

/-- C11 as stated fails: behind a good header and with an empty payload
`kdc2bmp` reports nothing and writes the .bmp file, and cell (0, 0) of the
sensor array is 255, not 0. -/
theorem truncated_input_not_zero_filled :
    ¬ (∀ payload : List Nat, payload.length < 848 * 976 →
      ((main 2 (some (goodHeader ++ payload)) true).bmp = none ∧
        (main 2 (some (goodHeader ++ payload)) true).diag ≠ []) ∨
      (∀ k d : Nat, k < 976 → d < 848 →
        payload.length ≤ 848 * k + (((d : Int) + kdcoffAt k) % 848).toNat →
        sensorGrid payload k d = 0)) := by
  intro h
  rcases h [] (by decide) with h1 | h1
  · have hm := main_accepts (goodHeader ++ [])
      (by rw [fread_goodHeader]; exact goodHeader_valid)
    rw [hm] at h1
    exact absurd h1.1 (by simp)
  · have h2 := h1 0 0 (by decide) (by decide) (by simp)
    rw [sensorGrid_cell [] 0 0 (by decide) (by decide), byteRead_eof [] _ (by simp)] at h2
    exact absurd h2 (by decide)

/-- C11, amended. Short input is read as end-of-file values: for every file
with a valid header, whatever the length of the payload behind it, `kdc2bmp`
prints no diagnostic and writes the complete .bmp file of 54 + 3724416 bytes,
and every cell of the sensor array whose source byte lies beyond the end of the
input is 255, the value -1 of `fgetc` stored into an `unsigned char`. -/
theorem truncated_input_reads_eof (file : List Nat)
    (hv : ValidHeader (fread CCDOFF file).1 1) :
    main 2 (some file) true =
      { diag := [],
        bmp := some (bmphead ++ pixelStream (demosaic (sensorGrid (fread CCDOFF file).2))) } ∧
    (bmphead ++ pixelStream (demosaic (sensorGrid (fread CCDOFF file).2))).length = 3724470 ∧
    ∀ k d : Nat, k < 976 → d < 848 →
      (fread CCDOFF file).2.length ≤ 848 * k + (((d : Int) + kdcoffAt k) % 848).toNat →
      sensorGrid (fread CCDOFF file).2 k d = 255 := by
  refine ⟨main_accepts file hv, ?_, ?_⟩
  · rw [List.length_append, pixelStream_length, bmphead_length]
  · intro k d hk hd hle
    obtain ⟨h0, h1, _⟩ := kdcoffAt_range k hk
    have hcol : ((((d : Int) + kdcoffAt k) % 848).toNat) =
        (d + (kdcoffAt k).toNat) % 848 := by omega
    rw [hcol] at hle
    rw [sensorGrid_cell _ k d hk hd, byteRead_eof _ _ hle]

/-- Witness for C11: the file that is only the good header, cell (0, 0). -/
theorem truncated_input_reads_eof_witness :
    main 2 (some (goodHeader ++ [])) true =
      { diag := [],
        bmp := some (bmphead ++
          pixelStream (demosaic (sensorGrid (fread CCDOFF (goodHeader ++ [])).2))) } ∧
    sensorGrid (fread CCDOFF (goodHeader ++ [])).2 0 0 = 255 :=
  ⟨(truncated_input_reads_eof (goodHeader ++ [])
      (by rw [fread_goodHeader]; exact goodHeader_valid)).1,
   (truncated_input_reads_eof (goodHeader ++ [])
      (by rw [fread_goodHeader]; exact goodHeader_valid)).2.2 0 0 (by decide) (by decide)
      (by rw [fread_goodHeader]; simp)⟩

/-- C20, evaluated. The size fields of `bmphead` against what `main` writes: bytes 2-5 hold
9270 and bytes 34-37 hold 9216, while for every payload behind the good header
the .bmp file has 3724470 bytes: the 54 bytes of `bmphead` and 3724416 bytes of
pixel data. -/
theorem bmphead_size_fields :
    le32 bmphead 2 = 9270 ∧ le32 bmphead 34 = 9216 ∧
    ∀ payload : List Nat, ∃ out : List Nat,
      (main 2 (some (goodHeader ++ payload)) true).bmp = some out ∧
      out.length = 3724470 ∧ out.take 54 = bmphead ∧ (out.drop 54).length = 3724416 := by
  refine ⟨by decide, by decide, ?_⟩
  intro payload
  have hm := main_accepts (goodHeader ++ payload)
    (by rw [fread_goodHeader]; exact goodHeader_valid)
  refine ⟨_, by rw [hm], ?_, ?_, ?_⟩
  · rw [List.length_append, pixelStream_length, bmphead_length]
  · rw [List.take_left' bmphead_length]
  · rw [List.drop_left' bmphead_length, pixelStream_length]

/-! ## Frame of the interpolation passes -/

/-- The red pass changes no cell outside the interior and no R position. -/
theorem redPass_frame (ccd : Grid) (p : Planes) (k j : Nat)
    (h : ¬ (2 ≤ k ∧ k < 974 ∧ 2 ≤ j ∧ j < 846) ∨ (k % 2 = 0 ∧ j % 2 = 1)) :
    (redPass ccd p).red k j = p.red k j := by
  unfold redPass
  apply nest_pres (fun k j p => redBody ccd k j p) (CCDHEI - 2) 2 CCDHEI 2
    (CCDWID - 2) 2 CCDWID 3 (fun s => s.red k j = p.red k j) _ p rfl
  intro k1 j1 s hk1 hj1 hq
  simp only [Visits, CCDHEI, CCDWID] at hk1 hj1
  rw [redBody_frame ccd k1 j1 s k j (by omega)]
  exact hq

/-- The blue pass changes no cell outside the interior and no B position. -/
theorem bluPass_frame (ccd : Grid) (p : Planes) (k j : Nat)
    (h : ¬ (2 ≤ k ∧ k < 974 ∧ 2 ≤ j ∧ j < 846) ∨ (k % 2 = 1 ∧ j % 2 = 0)) :
    (bluPass ccd p).blu k j = p.blu k j := by
  unfold bluPass
  apply nest_pres (fun k j p => bluBody ccd k j p) (CCDHEI - 2) 2 CCDHEI 3
    (CCDWID - 2) 2 CCDWID 2 (fun s => s.blu k j = p.blu k j) _ p rfl
  intro k1 j1 s hk1 hj1 hq
  simp only [Visits, CCDHEI, CCDWID] at hk1 hj1
  rw [bluBody_frame ccd k1 j1 s k j (by omega)]
  exact hq

/-- The planes after the four interpolation passes, each in terms of the
passes that write it. -/
theorem interpolate_planes (ccd : Grid) (p : Planes) :
    (interpolate ccd p).red = (redPass ccd p).red ∧
    (interpolate ccd p).gre = (grePassOdd ccd (grePassEven ccd (redPass ccd p))).gre ∧
    (interpolate ccd p).blu =
      (bluPass ccd (grePassOdd ccd (grePassEven ccd (redPass ccd p)))).blu := by
  unfold interpolate
  refine ⟨?_, ?_, rfl⟩
  · rw [(bluPass_others ccd _).1, (grePassOdd_others ccd _).1, (grePassEven_others ccd _).1]
  · rw [(bluPass_others ccd _).2]

/-- The interpolation passes change a cell only in the interior and only where
the mosaic has no sample of the plane's colour. -/
theorem interpolate_frame (ccd : Grid) (p : Planes) (k j : Nat) :
    ((¬ (2 ≤ k ∧ k < 974 ∧ 2 ≤ j ∧ j < 846) ∨ (k % 2 = 0 ∧ j % 2 = 1)) →
      (interpolate ccd p).red k j = p.red k j) ∧
    ((¬ (2 ≤ k ∧ k < 974 ∧ 2 ≤ j ∧ j < 846) ∨ (k + j) % 2 = 0) →
      (interpolate ccd p).gre k j = p.gre k j) ∧
    ((¬ (2 ≤ k ∧ k < 974 ∧ 2 ≤ j ∧ j < 846) ∨ (k % 2 = 1 ∧ j % 2 = 0)) →
      (interpolate ccd p).blu k j = p.blu k j) := by
  obtain ⟨e1, e2, e3⟩ := interpolate_planes ccd p
  refine ⟨?_, ?_, ?_⟩
  · intro h
    rw [e1, redPass_frame ccd p k j h]
  · intro h
    have f1 := grePass_frame ccd (grePassEven ccd (redPass ccd p)) 3 2 k j
      (by simp only [Visits, CCDHEI, CCDWID]; omega)
    have f2 := grePass_frame ccd (redPass ccd p) 2 3 k j
      (by simp only [Visits, CCDHEI, CCDWID]; omega)
    rw [e2]
    unfold grePassOdd
    rw [f1]
    unfold grePassEven
    rw [f2, (redPass_others ccd p).1]
  · intro h
    rw [e3, bluPass_frame ccd _ k j h, (grePassOdd_others ccd _).2,
      (grePassEven_others ccd _).2, (redPass_others ccd p).2]

/-- C17. Frame of the refinement phase: whatever the planes hold before it,
Phase 2 leaves a cell `(k, j)` of a plane unchanged unless the cell is interior
(`2 <= k < 974`, `2 <= j < 846`) and is not a mosaic sample of the plane's
colour.  So every cell of the 2-pixel border keeps its replicated value in all
three planes, and for a sensor array of `unsigned char` samples the final planes
have `red[k][j] = ccd[k][j]` at every `(k even, j odd)`, `blu[k][j] = ccd[k][j]`
at every `(k odd, j even)` and `gre[k][j] = ccd[k][j]` wherever `k + j` is
even, for `k < 976` and `j < 848`. -/
theorem refinement_frame (ccd : Grid) (k j : Nat) :
    (∀ p : Planes,
      ((¬ (2 ≤ k ∧ k < 974 ∧ 2 ≤ j ∧ j < 846) ∨ (k % 2 = 0 ∧ j % 2 = 1)) →
        (interpolate ccd p).red k j = p.red k j) ∧
      ((¬ (2 ≤ k ∧ k < 974 ∧ 2 ≤ j ∧ j < 846) ∨ (k + j) % 2 = 0) →
        (interpolate ccd p).gre k j = p.gre k j) ∧
      ((¬ (2 ≤ k ∧ k < 974 ∧ 2 ≤ j ∧ j < 846) ∨ (k % 2 = 1 ∧ j % 2 = 0)) →
        (interpolate ccd p).blu k j = p.blu k j)) ∧
    ((k < 2 ∨ 974 ≤ k ∨ j < 2 ∨ 846 ≤ j) →
      (demosaic ccd).red k j = (replicate ccd zeroPlanes).red k j ∧
      (demosaic ccd).gre k j = (replicate ccd zeroPlanes).gre k j ∧
      (demosaic ccd).blu k j = (replicate ccd zeroPlanes).blu k j) ∧
    ((∀ a b, a < 976 → b < 848 → ccd a b < 256) → k < 976 → j < 848 →
      ((k % 2 = 0 ∧ j % 2 = 1) → (demosaic ccd).red k j = ccd k j) ∧
      ((k % 2 = 1 ∧ j % 2 = 0) → (demosaic ccd).blu k j = ccd k j) ∧
      ((k + j) % 2 = 0 → (demosaic ccd).gre k j = ccd k j)) := by
  refine ⟨fun p => interpolate_frame ccd p k j, ?_, ?_⟩
  · intro hb
    obtain ⟨f1, f2, f3⟩ := interpolate_frame ccd (replicate ccd zeroPlanes) k j
    unfold demosaic
    exact ⟨f1 (Or.inl (by omega)), f2 (Or.inl (by omega)), f3 (Or.inl (by omega))⟩
  · intro hccd hk hj
    obtain ⟨f1, f2, f3⟩ := interpolate_frame ccd (replicate ccd zeroPlanes) k j
    obtain ⟨r1, r2, r3⟩ := replicate_cell ccd zeroPlanes k j hk hj
    unfold demosaic
    refine ⟨?_, ?_, ?_⟩
    · intro h
      have e1 : 2 * (k / 2) = k := by omega
      have e2 : 2 * (j / 2) + 1 = j := by omega
      rw [f1 (Or.inr h), r1, e1, e2, uchar_of_lt _ (hccd k j hk hj)]
    · intro h
      have e1 : 2 * (k / 2) + 1 = k := by omega
      have e2 : 2 * (j / 2) = j := by omega
      rw [f3 (Or.inr h), r3, e1, e2, uchar_of_lt _ (hccd k j hk hj)]
    · intro h
      rw [f2 (Or.inr h), r2]
      by_cases he : k % 2 = 0
      · have e1 : 2 * (k / 2) = k := by omega
        have e2 : 2 * (j / 2) = j := by omega
        rw [e1, e2, if_pos rfl, uchar_of_lt _ (hccd k j hk hj)]
      · have e1 : 2 * (k / 2) + 1 = k := by omega
        have e2 : 2 * (j / 2) + 1 = j := by omega
        rw [if_neg (by omega), e1, e2, uchar_of_lt _ (hccd k j hk hj)]

/-- Witness for C17: the sensor array `ccd[k][j] = (37 k + 91 j) mod 256`; the
border cell (1, 400) and the R position (10, 21). -/
theorem refinement_frame_witness :
    (demosaic (fun k j => (37 * k + 91 * j) % 256)).red 1 400 =
      (replicate (fun k j => (37 * k + 91 * j) % 256) zeroPlanes).red 1 400 ∧
    (demosaic (fun k j => (37 * k + 91 * j) % 256)).red 10 21 =
      (fun k j => (37 * k + 91 * j) % 256) 10 21 :=
  ⟨((refinement_frame (fun k j => (37 * k + 91 * j) % 256) 1 400).2.1
      (Or.inl (by decide))).1,
   ((refinement_frame (fun k j => (37 * k + 91 * j) % 256) 10 21).2.2
      (fun _ _ _ _ => Nat.mod_lt _ (by decide)) (by decide) (by decide)).1
      ⟨by decide, by decide⟩⟩

/-! ## Index ranges and value ranges -/

theorem uchar_lt (n : Nat) : uchar n < 256 := Nat.mod_lt _ (by decide)

/-- The loop bodies assign exactly the values listed as their stores. -/
theorem bodies_store (ccd : Grid) (k j : Nat) (p : Planes) :
    redBody ccd k j p =
      setRed (setRed (setRed p k (j - 1) ((redStores ccd k j).getD 0 0))
        (k + 1) j ((redStores ccd k j).getD 1 0)) (k + 1) (j - 1) ((redStores ccd k j).getD 2 0) ∧
    greBody ccd k j p = setGre p k j ((greStores ccd k j).getD 0 0) ∧
    bluBody ccd k j p =
      setBlu (setBlu (setBlu p k (j + 1) ((bluStores ccd k j).getD 0 0))
        (k - 1) j ((bluStores ccd k j).getD 1 0)) (k - 1) (j + 1) ((bluStores ccd k j).getD 2 0) :=
  ⟨rfl, rfl, rfl⟩

theorem replicate_bytes (ccd : Grid) (p0 : Planes) : BytePlanes (replicate ccd p0) := by
  intro k j hk hj
  obtain ⟨h1, h2, h3⟩ := replicate_cell ccd p0 k j hk hj
  rw [h1, h2, h3]
  refine ⟨uchar_lt _, ?_, uchar_lt _⟩
  split_ifs <;> exact uchar_lt _

theorem redBody_bytes (ccd : Grid) (k1 j1 : Nat) (s : Planes) (hq : BytePlanes s) :
    BytePlanes (redBody ccd k1 j1 s) := by
  intro k j hk hj
  obtain ⟨q1, q2, q3⟩ := hq k j hk hj
  refine ⟨?_, q2, q3⟩
  simp only [redBody, setRed, setCell]
  split_ifs <;> first | exact uchar_lt _ | exact q1

theorem greBody_bytes (ccd : Grid) (k1 j1 : Nat) (s : Planes) (hq : BytePlanes s) :
    BytePlanes (greBody ccd k1 j1 s) := by
  intro k j hk hj
  obtain ⟨q1, q2, q3⟩ := hq k j hk hj
  refine ⟨q1, ?_, q3⟩
  simp only [greBody, setGre, setCell]
  split_ifs <;> first | exact uchar_lt _ | exact q2

theorem bluBody_bytes (ccd : Grid) (k1 j1 : Nat) (s : Planes) (hq : BytePlanes s) :
    BytePlanes (bluBody ccd k1 j1 s) := by
  intro k j hk hj
  obtain ⟨q1, q2, q3⟩ := hq k j hk hj
  refine ⟨q1, q2, ?_⟩
  simp only [bluBody, setBlu, setCell]
  split_ifs <;> first | exact uchar_lt _ | exact q3

/-- After both demosaic phases every cell of the planes is below 256. -/
theorem demosaic_bytes (ccd : Grid) : BytePlanes (demosaic ccd) := by
  have h0 : BytePlanes (replicate ccd zeroPlanes) := replicate_bytes ccd zeroPlanes
  have h1 : BytePlanes (redPass ccd (replicate ccd zeroPlanes)) := by
    unfold redPass
    exact nest_pres (fun k j s => redBody ccd k j s) _ _ _ _ _ _ _ _ BytePlanes
      (fun k1 j1 s _ _ hq => redBody_bytes ccd k1 j1 s hq) _ h0
  have h2 : BytePlanes (grePassEven ccd (redPass ccd (replicate ccd zeroPlanes))) := by
    unfold grePassEven
    exact nest_pres (fun k j s => greBody ccd k j s) _ _ _ _ _ _ _ _ BytePlanes
      (fun k1 j1 s _ _ hq => greBody_bytes ccd k1 j1 s hq) _ h1
  have h3 : BytePlanes
      (grePassOdd ccd (grePassEven ccd (redPass ccd (replicate ccd zeroPlanes)))) := by
    unfold grePassOdd
    exact nest_pres (fun k j s => greBody ccd k j s) _ _ _ _ _ _ _ _ BytePlanes
      (fun k1 j1 s _ _ hq => greBody_bytes ccd k1 j1 s hq) _ h2
  unfold demosaic interpolate
  unfold bluPass
  exact nest_pres (fun k j s => bluBody ccd k j s) _ _ _ _ _ _ _ _ BytePlanes
    (fun k1 j1 s _ _ hq => bluBody_bytes ccd k1 j1 s hq) _ h3

/-- On planes of bytes every gamma table index of the output loop is below 256. -/
theorem indexStream_lt (p : Planes) (hp : BytePlanes p) : ∀ i ∈ indexStream p, i < 256 := by
  intro i hi
  rw [indexStream_eq, mem_blocks] at hi
  obtain ⟨r, hr, hi⟩ := hi
  rw [mem_blocks] at hi
  obtain ⟨m, hm, hi⟩ := hi
  obtain ⟨a1, a2, a3⟩ := hp (975 - r) (2 * m) (by omega) (by omega)
  obtain ⟨b1, b2, b3⟩ := hp (975 - r) (2 * m + 1) (by omega) (by omega)
  simp only [pairIdx, List.mem_cons, List.mem_singleton, List.not_mem_nil, or_false] at hi
  omega

/-- C18. No out-of-range index in the pipeline: for every value the loop
variables take, every index pair of the replication body, of the red, the two
green and the blue interpolation bodies and of the output body has its row in
`[0, 976)` and its column in `[0, 848)`; every value assigned to a plane cell, a
sample or the truncated mean of 2 or 4 samples, is at most 255; and every gamma
table index of the output loop is below 256. -/
theorem no_out_of_range_index :
    (∀ k j : Nat, Visits 0 CCDHEI 2 k → Visits 0 CCDWID 2 j →
      ∀ x ∈ replicateIdx k j, InGrid x) ∧
    (∀ k j : Nat, Visits 2 (CCDHEI - 2) 2 k → Visits 3 (CCDWID - 2) 2 j →
      ∀ x ∈ redIdx k j, InGrid x) ∧
    (∀ k j : Nat, Visits 2 (CCDHEI - 2) 2 k → Visits 3 (CCDWID - 2) 2 j →
      ∀ x ∈ greIdx k j, InGrid x) ∧
    (∀ k j : Nat, Visits 3 (CCDHEI - 2) 2 k → Visits 2 (CCDWID - 2) 2 j →
      ∀ x ∈ greIdx k j, InGrid x) ∧
    (∀ k j : Nat, Visits 3 (CCDHEI - 2) 2 k → Visits 2 (CCDWID - 2) 2 j →
      ∀ x ∈ bluIdx k j, InGrid x) ∧
    (∀ k j : Nat, k < CCDHEI → Visits 0 CCDWID 2 j → ∀ x ∈ emitIdx k j, InGrid x) ∧
    (∀ ccd : Grid, (∀ a b, a < 976 → b < 848 → ccd a b < 256) →
      ∀ k j : Nat, Visits 0 CCDHEI 2 k → Visits 0 CCDWID 2 j →
        ∀ v ∈ replicateStores ccd k j, v ≤ 255) ∧
    (∀ (ccd : Grid) (k j : Nat),
      (∀ v ∈ redStores ccd k j, v ≤ 255) ∧ (∀ v ∈ greStores ccd k j, v ≤ 255) ∧
      (∀ v ∈ bluStores ccd k j, v ≤ 255)) ∧
    (∀ ccd : Grid, ∀ i ∈ indexStream (demosaic ccd), i < 256) := by
  refine ⟨?_, ?_, ?_, ?_, ?_, ?_, ?_, ?_, ?_⟩
  · intro k j hk hj x hx
    simp only [Visits, CCDHEI, CCDWID] at hk hj
    simp only [replicateIdx, List.mem_cons, List.mem_singleton, List.not_mem_nil,
      or_false] at hx
    rcases hx with rfl | rfl | rfl | rfl | rfl | rfl | rfl | rfl <;>
      (unfold InGrid; dsimp only; omega)
  · intro k j hk hj x hx
    simp only [Visits, CCDHEI, CCDWID] at hk hj
    simp only [redIdx, List.mem_cons, List.mem_singleton, List.not_mem_nil, or_false] at hx
    rcases hx with rfl | rfl | rfl | rfl | rfl | rfl | rfl <;>
      (unfold InGrid; dsimp only; omega)
  · intro k j hk hj x hx
    simp only [Visits, CCDHEI, CCDWID] at hk hj
    simp only [greIdx, List.mem_cons, List.mem_singleton, List.not_mem_nil, or_false] at hx
    rcases hx with rfl | rfl | rfl | rfl | rfl <;> (unfold InGrid; dsimp only; omega)
  · intro k j hk hj x hx
    simp only [Visits, CCDHEI, CCDWID] at hk hj
    simp only [greIdx, List.mem_cons, List.mem_singleton, List.not_mem_nil, or_false] at hx
    rcases hx with rfl | rfl | rfl | rfl | rfl <;> (unfold InGrid; dsimp only; omega)
  · intro k j hk hj x hx
    simp only [Visits, CCDHEI, CCDWID] at hk hj
    simp only [bluIdx, List.mem_cons, List.mem_singleton, List.not_mem_nil, or_false] at hx
    rcases hx with rfl | rfl | rfl | rfl | rfl | rfl | rfl <;>
      (unfold InGrid; dsimp only; omega)
  · intro k j hk hj x hx
    simp only [Visits, CCDHEI, CCDWID] at hk hj
    simp only [emitIdx, List.mem_cons, List.mem_singleton, List.not_mem_nil, or_false] at hx
    rcases hx with rfl | rfl <;> (unfold InGrid; dsimp only; omega)
  · intro ccd hccd k j hk hj v hv
    simp only [Visits, CCDHEI, CCDWID] at hk hj
    simp only [replicateStores, List.mem_cons, List.mem_singleton, List.not_mem_nil,
      or_false] at hv
    rcases hv with rfl | rfl | rfl | rfl
    · have := hccd k (j + 1) (by omega) (by omega); omega
    · have := hccd k j (by omega) (by omega); omega
    · have := hccd (k + 1) (j + 1) (by omega) (by omega); omega
    · have := hccd (k + 1) j (by omega) (by omega); omega
  · intro ccd k j
    refine ⟨?_, ?_, ?_⟩
    · intro v hv
      simp only [redStores, uchar, List.mem_cons, List.mem_singleton, List.not_mem_nil,
        or_false] at hv
      omega
    · intro v hv
      simp only [greStores, uchar, List.mem_cons, List.mem_singleton, List.not_mem_nil,
        or_false] at hv
      omega
    · intro v hv
      simp only [bluStores, uchar, List.mem_cons, List.mem_singleton, List.not_mem_nil,
        or_false] at hv
      omega
  · intro ccd
    exact indexStream_lt _ (demosaic_bytes ccd)

/-- Witness for C18: the last iteration of the red loop (k = 972, j = 845), the
first of the blue loop (k = 3, j = 2), and the replication stores at (0, 0) for
the sensor array `ccd[k][j] = (37 k + 91 j) mod 256`. -/
theorem no_out_of_range_index_witness :
    (∀ x ∈ redIdx ((972 : Nat) : Int) ((845 : Nat) : Int), InGrid x) ∧
    (∀ x ∈ bluIdx ((3 : Nat) : Int) ((2 : Nat) : Int), InGrid x) ∧
    (∀ v ∈ replicateStores (fun k j => (37 * k + 91 * j) % 256) 0 0, v ≤ 255) :=
  ⟨no_out_of_range_index.2.1 972 845 (by decide) (by decide),
   no_out_of_range_index.2.2.2.2.1 3 2 (by decide) (by decide),
   no_out_of_range_index.2.2.2.2.2.2.1 (fun k j => (37 * k + 91 * j) % 256)
     (fun _ _ _ _ => Nat.mod_lt _ (by decide)) 0 0 (by decide) (by decide)⟩

end Kdc2bmp

/-! ## The pass-through converter -/

namespace Kdc2jpg

open Kdc2bmp

theorem jpghead_length : jpghead.length = 20 := by decide

theorem fgetc_snd (kdc : List Nat) : (fgetc kdc).2 = kdc.drop 1 := by
  cases kdc <;> rfl

/-- The copy loop, given enough fuel, appends the stream with every pair of
bytes swapped. -/
theorem copyLoop_spec :
    ∀ (fuel : Nat) (kdc jpg : List Nat), (∀ b ∈ kdc, b < 256) → kdc.length < 2 * fuel →
      copyLoop fuel kdc jpg = jpg ++ swapPairs kdc := by
  intro fuel
  induction fuel with
  | zero => intro kdc jpg _ h; omega
  | succ n ih =>
    intro kdc jpg hb hlen
    match kdc, hb, hlen with
    | [], _, _ => simp [copyLoop, fgetc, swapPairs]
    | [a], _, _ => simp [copyLoop, fgetc, swapPairs]
    | a :: b :: rest, hb, hlen =>
      have ha : a < 256 := hb a (by simp)
      have hb2 : b < 256 := hb b (by simp)
      have hrest : ∀ c ∈ rest, c < 256 := fun c hc => hb c (by simp [hc])
      have hl : rest.length < 2 * n := by
        simp only [List.length_cons] at hlen
        omega
      have hstep : copyLoop (n + 1) (a :: b :: rest) jpg =
          copyLoop n rest (fputc a (fputc b jpg)) := by
        simp [copyLoop, fgetc]
      rw [hstep, ih rest _ hrest hl]
      simp [fputc, uchar_of_lt a ha, uchar_of_lt b hb2, swapPairs]

theorem swapPairs_length : ∀ (n : Nat) (l : List Nat), l.length = 2 * n →
    (swapPairs l).length = 2 * n := by
  intro n
  induction n with
  | zero =>
    intro l hl
    have : l = [] := List.length_eq_zero.mp (by omega)
    subst this
    rfl
  | succ n ih =>
    intro l hl
    match l, hl with
    | a :: b :: rest, hl =>
      simp only [List.length_cons] at hl
      simp only [swapPairs, List.length_cons]
      rw [ih rest (by omega)]
      omega

theorem compressedHeader_length : compressedHeader.length = 15680 := (header_shape 7).1

theorem compressedHeader_valid : ValidHeader compressedHeader 7 := (header_shape 7).2

theorem fread_compressedHeader (payload : List Nat) :
    fread CCDOFF (compressedHeader ++ payload) = (compressedHeader, payload) := by
  have hl := compressedHeader_length
  simp only [fread, CCDOFF]
  rw [List.take_left' hl, List.drop_left' hl, List.length_append, hl]
  have e : 15680 - (15680 + payload.length) = 0 := by omega
  rw [e, List.replicate_zero, List.append_nil]

/-- An accepted file: `main` writes the JFIF header and then the payload behind
its first two bytes, pair by pair with the bytes of each pair swapped. -/
theorem jpg_main_accepts (file : List Nat) (hv : ValidHeader (fread CCDOFF file).1 7)
    (hb : ∀ b ∈ (fread CCDOFF file).2, b < 256) :
    main 2 (some file) true =
      { diag := [],
        jpg := some (jpghead ++ swapPairs ((fread CCDOFF file).2.drop 2)) } := by
  obtain ⟨h1, h2⟩ := hv
  have e1 : strcmp ((fread CCDOFF file).1.drop 470) ident = 0 := (strcmp_ident _).mpr h1
  have e2 : (fgetc (fgetc (fread CCDOFF file).2).2).2 = (fread CCDOFF file).2.drop 2 := by
    rw [fgetc_snd, fgetc_snd, List.drop_drop]
  have hb2 : ∀ b ∈ (fread CCDOFF file).2.drop 2, b < 256 :=
    fun b hm => hb b (List.mem_of_mem_drop hm)
  have e3 := copyLoop_spec (((fread CCDOFF file).2.drop 2).length + 1)
    ((fread CCDOFF file).2.drop 2) (fwrite jpghead []) hb2 (by omega)
  rw [List.getD_eq_getElem?_getD] at h2
  simp only [fwrite, List.nil_append] at e3
  simp only [main, e1, e2, fwrite, List.nil_append, e3]
  simp [h2]

/-- C16 as stated fails: behind a good header the payload 1, 2, 3, 4 gives the
JFIF header followed by 4, 3; the first two payload bytes are not copied. -/
theorem jpg_copies_whole_payload_fails :
    ¬ (∀ payload : List Nat, (∀ b ∈ payload, b < 256) → payload.length % 2 = 0 →
      (main 2 (some (compressedHeader ++ payload)) true).jpg =
        some (jpghead ++ swapPairs payload)) := by
  intro h
  have h1 := h [1, 2, 3, 4] (by decide) (by decide)
  rw [jpg_main_accepts (compressedHeader ++ [1, 2, 3, 4])
    (by rw [fread_compressedHeader]; exact compressedHeader_valid)
    (by rw [fread_compressedHeader]; decide), fread_compressedHeader] at h1
  have h2 := congrArg (fun o => (o.getD []).length) h1
  simp [swapPairs, jpghead_length] at h2

/-- C16, amended. `kdc2jpg` pass-through: for every file with a valid header
(mode byte 7) whose payload behind the 15680-byte header has even length, the
.jpg file is the 20 bytes of `jpghead` followed by the payload without its
first two bytes, with the two bytes of every consecutive 2-byte unit swapped; its
length is 20 plus the payload length minus 2 (20 for an empty payload). -/
theorem jpg_pass_through (file : List Nat) (hv : ValidHeader (fread CCDOFF file).1 7)
    (hb : ∀ b ∈ (fread CCDOFF file).2, b < 256)
    (heven : (fread CCDOFF file).2.length % 2 = 0) :
    main 2 (some file) true =
      { diag := [],
        jpg := some (jpghead ++ swapPairs ((fread CCDOFF file).2.drop 2)) } ∧
    (jpghead ++ swapPairs ((fread CCDOFF file).2.drop 2)).length =
      20 + ((fread CCDOFF file).2.length - 2) := by
  refine ⟨jpg_main_accepts file hv hb, ?_⟩
  have hl : ((fread CCDOFF file).2.drop 2).length =
      2 * (((fread CCDOFF file).2.length - 2) / 2) := by
    rw [List.length_drop]
    omega
  rw [List.length_append, jpghead_length, swapPairs_length _ _ hl]
  omega

/-- Witness for C16: the payload 1, 2, 3, 4 behind the good header. -/
theorem jpg_pass_through_witness :
    main 2 (some (compressedHeader ++ [1, 2, 3, 4])) true =
      { diag := [],
        jpg := some (jpghead ++
          swapPairs ((fread CCDOFF (compressedHeader ++ [1, 2, 3, 4])).2.drop 2)) } ∧
    (jpghead ++ swapPairs ((fread CCDOFF (compressedHeader ++ [1, 2, 3, 4])).2.drop 2)).length =
      20 + ((fread CCDOFF (compressedHeader ++ [1, 2, 3, 4])).2.length - 2) :=
  jpg_pass_through (compressedHeader ++ [1, 2, 3, 4])
    (by rw [fread_compressedHeader]; exact compressedHeader_valid)
    (by rw [fread_compressedHeader]; decide)
    (by rw [fread_compressedHeader]; decide)

end Kdc2jpg
